import Mathlib

/-!
# Vertex-loader manager: register decoder, loader cache and vertex dispatch

A shallow embedding of `Source/Core/VideoCommon/VertexLoaderManager.cpp`, and of the result
translation of `WiimoteHidapi::IORead` in `Source/Core/Core/HW/WiimoteReal/IOhidapi.cpp`.

Conventions of the embedding:

* `u32` / `u64` values are natural numbers; a store that can overflow its destination is
  written with an explicit `% 2 ^ w`.
* `int s_attr_dirty` is represented by its 32-bit two-complement bit pattern; the source only
  ever combines it with `|`, `&` and `>>` on bit positions below 32, which act on the pattern.
* The global fixed-size arrays (`g_VtxAttr[8]`, `arraybases[16]`, `arraystrides[16]`,
  `cached_arraybases[16]`, `s_VertexLoaders[8]`) are functions of the index; every index the
  source computes is masked (`& 7`, `& 0xF`) or a loop counter, hence in range.
* Pointers are natural numbers (addresses); a nullable pointer is an `Option`.
* Calls into other components are appended to a call log.
* An access outside a fixed-size array and a dereference of the null pointer have no defined
  result: the operation yields `none`.
* What the absent class `VertexLoader` computes is a parameter (`LoaderEnv`).
-/

namespace Dolphin

/-! ## Data model -/

/-- One vertex attribute table entry: the three raw words `g0.Hex`, `g1.Hex`, `g2.Hex`. -/
structure VAT where
  g0 : Nat
  g1 : Nat
  g2 : Nat
deriving DecidableEq, Repr

/-- Modelled from the spec: `VertexLoaderUID` (declared in `VertexLoader.h`, which is not among
the sources) is the configuration key derived from the full vertex-descriptor bitfield and the bitfields of one
attribute group (three sub-words), with structural equality over all bits. -/
structure VertexLoaderUID where
  vtx_desc : Nat
  vat : VAT
deriving DecidableEq, Repr

/-- Calls that leave this translation unit, in the order they are made. -/
inductive Call where
  | SetTexMatrixChangedA (value : Nat)
  | SetTexMatrixChangedB (value : Nat)
  /-- The call `DataSkip(skip)`: the input cursor advances by `skip` bytes. -/
  | DataSkip (skip : Nat)
  /-- The call `VertexManager::Flush()`; `current_fmt` is what `GetCurrentVertexFormat()`
  returns while the flush runs, that is `s_current_vtx_fmt` at the time of the call. -/
  | Flush (current_fmt : Option Nat)
  /-- The call `VertexManager::PrepareForAdditionalData(primitive, count, stride)`. -/
  | PrepareForAdditionalData (primitive count : Int) (stride : Nat)
  /-- The call `loader->RunVertices(vat, primitive, count)` on the loader at address `loader`. -/
  | LoaderRunVertices (loader : Nat) (vat : VAT) (primitive count : Int)
  /-- The call `IndexGenerator::AddIndices(primitive, count)`. -/
  | AddIndices (primitive count : Int)
  /-- The statistics update `ADDSTAT(stats.thisFrame.numPrims, count)`. -/
  | AddStatNumPrims (count : Int)
  /-- The statistics update `INCSTAT(stats.thisFrame.numPrimitiveJoins)`. -/
  | IncStatNumPrimitiveJoins
  /-- The call `VertexLoader::ClearNativeVertexFormatCache()`. -/
  | ClearNativeVertexFormatCache
deriving DecidableEq, Repr

/-- The global state read and written by `VertexLoaderManager.cpp`. -/
structure State where
  /-- The 64-bit word `g_VtxDesc.Hex`. -/
  g_VtxDesc : Nat
  /-- The array `g_VtxAttr[8]`. -/
  g_VtxAttr : Nat → VAT
  /-- The array `u32 arraybases[16]`. -/
  arraybases : Nat → Nat
  /-- The array `u32 arraystrides[16]`. -/
  arraystrides : Nat → Nat
  /-- The array `u8* cached_arraybases[16]`. -/
  cached_arraybases : Nat → Nat
  /-- The word `MatrixIndexA.Hex`. -/
  MatrixIndexA : Nat
  /-- The word `MatrixIndexB.Hex`. -/
  MatrixIndexB : Nat
  /-- The bitfield `static int s_attr_dirty`, as a bit pattern. -/
  s_attr_dirty : Nat
  /-- The pointer `static NativeVertexFormat* s_current_vtx_fmt`. -/
  s_current_vtx_fmt : Option Nat
  /-- The array `static VertexLoader* s_VertexLoaders[8]`. -/
  s_VertexLoaders : Nat → Option Nat
  /-- The map `s_vertex_loader_map`, from key to owned loader. -/
  s_vertex_loader_map : List (VertexLoaderUID × Nat)
  /-- The counter `stats.numVertexLoaders`. -/
  numVertexLoaders : Nat
  /-- The log of calls made into other components. -/
  calls : List Call

/-- The state of a freshly started process: zero-initialised statics, empty map, empty log. -/
def State.zero : State where
  g_VtxDesc := 0
  g_VtxAttr := fun _ => ⟨0, 0, 0⟩
  arraybases := fun _ => 0
  arraystrides := fun _ => 0
  cached_arraybases := fun _ => 0
  MatrixIndexA := 0
  MatrixIndexB := 0
  s_attr_dirty := 0
  s_current_vtx_fmt := none
  s_VertexLoaders := fun _ => none
  s_vertex_loader_map := []
  numVertexLoaders := 0
  calls := []

/-! ## Operations -/

/-- Modelled from the spec: the `_assert_` macro is not among the sources. The spec describes a
violated assertion as "assert/fatal in debug"; in a release build the macro expands to nothing.
`none` is the fatal stop, `some ()` lets execution continue with the next statement. -/
def _assert_ (debug : Bool) (cond : Bool) : Option Unit :=
  if debug && !cond then none else some ()

/-- Source function `MarkAllDirty()`. -/
def MarkAllDirty (s : State) : State :=
  { s with s_attr_dirty := 0xff }

/-- Source function `RecomputeCachedArraybases()`: the loop `for (int i = 0; i < 16; i++)`. -/
def RecomputeCachedArraybases (GetPointer : Nat → Nat) (s : State) : State :=
  (List.range 16).foldl
    (fun st i =>
      { st with cached_arraybases :=
          Function.update st.cached_arraybases i (GetPointer (st.arraybases i)) })
    s

/-- Source function `Init()`: mark everything dirty, null the eight slots, recompute the cached
pointers. -/
def Init (GetPointer : Nat → Nat) (s : State) : State :=
  let s1 := MarkAllDirty s
  let s2 := (List.range 8).foldl
    (fun st i => { st with s_VertexLoaders := Function.update st.s_VertexLoaders i none })
    s1
  RecomputeCachedArraybases GetPointer s2

/-- Source function `LoadCPReg(u32 sub_cmd, u32 value)`: the `switch (sub_cmd & 0xF0)`.

`~0x1FFFF` is an `int` expression (`-131072`); converted to the 64-bit type of `g_VtxDesc.Hex`
it is sign-extended to `0xFFFFFFFFFFFE0000`. `(u64)value << 17` is a 64-bit shift.
`debug` selects the build for `_assert_`; the result is `none` when an assertion stops the call.
Rows `0x30` and `0x40` only forward `value` to `VertexShaderManager`, which is recorded in the
call log. `GetPointer` stands for `Memory::GetPointer`. -/
def LoadCPReg (debug : Bool) (GetPointer : Nat → Nat) (s : State) (sub_cmd value : Nat) :
    Option State :=
  if sub_cmd &&& 0xF0 = 0x30 then
    some { s with calls := s.calls ++ [Call.SetTexMatrixChangedA value] }
  else if sub_cmd &&& 0xF0 = 0x40 then
    some { s with calls := s.calls ++ [Call.SetTexMatrixChangedB value] }
  else if sub_cmd &&& 0xF0 = 0x50 then
    some { s with
      g_VtxDesc := (s.g_VtxDesc &&& 0xFFFFFFFFFFFE0000) ||| value
      s_attr_dirty := 0xFF }
  else if sub_cmd &&& 0xF0 = 0x60 then
    some { s with
      g_VtxDesc := (s.g_VtxDesc &&& 0x1FFFF) ||| ((value <<< 17) % 2 ^ 64)
      s_attr_dirty := 0xFF }
  else if sub_cmd &&& 0xF0 = 0x70 then
    (_assert_ debug (decide (sub_cmd &&& 0x0F < 8))).bind fun _ =>
      some { s with
        g_VtxAttr := Function.update s.g_VtxAttr (sub_cmd &&& 7)
          { s.g_VtxAttr (sub_cmd &&& 7) with g0 := value }
        s_attr_dirty := s.s_attr_dirty ||| (1 <<< (sub_cmd &&& 7)) }
  else if sub_cmd &&& 0xF0 = 0x80 then
    (_assert_ debug (decide (sub_cmd &&& 0x0F < 8))).bind fun _ =>
      some { s with
        g_VtxAttr := Function.update s.g_VtxAttr (sub_cmd &&& 7)
          { s.g_VtxAttr (sub_cmd &&& 7) with g1 := value }
        s_attr_dirty := s.s_attr_dirty ||| (1 <<< (sub_cmd &&& 7)) }
  else if sub_cmd &&& 0xF0 = 0x90 then
    (_assert_ debug (decide (sub_cmd &&& 0x0F < 8))).bind fun _ =>
      some { s with
        g_VtxAttr := Function.update s.g_VtxAttr (sub_cmd &&& 7)
          { s.g_VtxAttr (sub_cmd &&& 7) with g2 := value }
        s_attr_dirty := s.s_attr_dirty ||| (1 <<< (sub_cmd &&& 7)) }
  else if sub_cmd &&& 0xF0 = 0xA0 then
    some { s with
      arraybases := Function.update s.arraybases (sub_cmd &&& 0xF) value
      cached_arraybases :=
        Function.update s.cached_arraybases (sub_cmd &&& 0xF) (GetPointer value) }
  else if sub_cmd &&& 0xF0 = 0xB0 then
    some { s with
      arraystrides := Function.update s.arraystrides (sub_cmd &&& 0xF) (value &&& 0xFF) }
  else
    some s

/-- Source function `FillCPMemoryArray(u32 *memory)`: the buffer of the caller is a function of
the slot index; the result is the buffer after all stores. `(u32)x` keeps the low 32 bits. -/
def FillCPMemoryArray (s : State) (memory : Nat → Nat) : Nat → Nat :=
  let m := Function.update memory 0x30 s.MatrixIndexA
  let m := Function.update m 0x40 s.MatrixIndexB
  let m := Function.update m 0x50 (s.g_VtxDesc % 2 ^ 32)
  let m := Function.update m 0x60 ((s.g_VtxDesc >>> 17) % 2 ^ 32)
  let m := (List.range 8).foldl
    (fun m i =>
      let m := Function.update m (0x70 + i) (s.g_VtxAttr i).g0
      let m := Function.update m (0x80 + i) (s.g_VtxAttr i).g1
      Function.update m (0x90 + i) (s.g_VtxAttr i).g2)
    m
  (List.range 16).foldl
    (fun m i =>
      let m := Function.update m (0xA0 + i) (s.arraybases i)
      Function.update m (0xB0 + i) (s.arraystrides i))
    m

/-- A sequence of `LoadCPReg(sub_cmd, value)` calls in program order; `none` as soon as one of
them stops fatally. -/
def LoadCPRegs (debug : Bool) (GetPointer : Nat → Nat) (s : State) :
    List (Nat × Nat) → Option State
  | [] => some s
  | (sub_cmd, value) :: rest =>
    (LoadCPReg debug GetPointer s sub_cmd value).bind fun s1 =>
      LoadCPRegs debug GetPointer s1 rest

/-- Sub-field `k` of an attribute table entry: `g0`, `g1`, `g2` for `k = 0, 1, 2`. -/
def VAT.field (a : VAT) (k : Nat) : Nat :=
  if k = 0 then a.g0 else if k = 1 then a.g1 else a.g2

/-- The entry `a` with sub-field `k` replaced by `v`. -/
def VAT.setField (a : VAT) (k : Nat) (v : Nat) : VAT :=
  if k = 0 then { a with g0 := v } else if k = 1 then { a with g1 := v } else { a with g2 := v }

/-- The array-base invariant: every cached pointer is the translation of its array base. -/
def CachedBasesValid (GetPointer : Nat → Nat) (s : State) : Prop :=
  ∀ i, i < 16 → s.cached_arraybases i = GetPointer (s.arraybases i)

/-- The slots of the dump that hold attribute sub-fields, array bases and array strides. -/
def IsRegisterSlot (o : Nat) : Prop :=
  (0x70 ≤ o ∧ o ≤ 0x77) ∨ (0x80 ≤ o ∧ o ≤ 0x87) ∨ (0x90 ≤ o ∧ o ≤ 0x97) ∨
    (0xA0 ≤ o ∧ o ≤ 0xAF) ∨ (0xB0 ≤ o ∧ o ≤ 0xBF)

/-- The dump slot of the register that `LoadCPReg` selects for `sub_cmd`: the row
`sub_cmd & 0xF0` plus the index, which is `sub_cmd & 7` in the attribute rows and
`sub_cmd & 0xF` in the array rows. -/
def decodedSlot (sub_cmd : Nat) : Nat :=
  if sub_cmd &&& 0xF0 = 0x70 ∨ sub_cmd &&& 0xF0 = 0x80 ∨ sub_cmd &&& 0xF0 = 0x90 then
    (sub_cmd &&& 0xF0) + (sub_cmd &&& 7)
  else
    (sub_cmd &&& 0xF0) + (sub_cmd &&& 0xF)

/-- The value of the last write of the sequence that `LoadCPReg` decodes to slot `o`. -/
def lastWriteTo (o : Nat) : List (Nat × Nat) → Option Nat
  | [] => none
  | (sub_cmd, value) :: rest =>
    match lastWriteTo o rest with
    | some x => some x
    | none => if decodedSlot sub_cmd = o then some value else none

/-- The condition of the `_assert_` in the attribute rows; `true` for every other row. -/
def assertHolds (sub_cmd : Nat) : Bool :=
  if sub_cmd &&& 0xF0 = 0x70 ∨ sub_cmd &&& 0xF0 = 0x80 ∨ sub_cmd &&& 0xF0 = 0x90 then
    decide (sub_cmd &&& 0x0F < 8)
  else
    true

/-! ## The loader cache, slot refresh and vertex dispatch -/

/-- The lookup `s_vertex_loader_map.find(uid)`: the loader stored under the key, if any. -/
def mapFind : List (VertexLoaderUID × Nat) → VertexLoaderUID → Option Nat
  | [], _ => none
  | (k, p) :: rest, uid => if k = uid then some p else mapFind rest uid

/-- The assignment `s_vertex_loader_map[uid] = loader`: the entry of the key is replaced if
there is one, and a new entry is added otherwise. -/
def mapAssign : List (VertexLoaderUID × Nat) → VertexLoaderUID → Nat →
    List (VertexLoaderUID × Nat)
  | [], uid, loader => [(uid, loader)]
  | (k, p) :: rest, uid, loader =>
    if k = uid then (uid, loader) :: rest else (k, p) :: mapAssign rest uid loader

/-- Modelled from the spec: the class `VertexLoader` (declared in `VertexLoader.h`, which is not
among the sources) is "an opaque compiled object" that "exposes a fixed per-vertex byte size and a
native output layout descriptor" and is immutable once constructed. A loader is identified by
its address; what the class computes is given by these functions of the address. -/
structure LoaderEnv where
  /-- The address returned by `new VertexLoader(g_VtxDesc, g_VtxAttr[vtx_attr_group])` when it
  is evaluated in the given state for the given group. -/
  new_VertexLoader : State → Nat → Nat
  /-- The result of `loader->GetVertexSize()`, a byte count. -/
  GetVertexSize : Nat → Nat
  /-- The result of `loader->GetNativeVertexFormat()`. -/
  GetNativeVertexFormat : Nat → Option Nat
  /-- The value of `loader->GetNativeVertexDeclaration().stride`. -/
  stride : Nat → Nat

/-- Modelled from the spec: the macro `INCSTAT` (declared in `Statistics.h`, which is not among
the sources) registers one event with the statistics collector; the counter grows by one. -/
def INCSTAT (counter : Nat) : Nat :=
  counter + 1

/-- Source function `RefreshLoader(int vtx_attr_group)`: the returned loader and the state
after the call. The arrays `s_VertexLoaders` and `g_VtxAttr` have eight entries; an index
outside `0..7` is an out-of-bounds access and yields `none`. `~(1 << vtx_attr_group)` is the
32-bit pattern with only that bit clear. The mutex is not modelled: calls are sequential. -/
def RefreshLoader (env : LoaderEnv) (s : State) (vtx_attr_group : Nat) :
    Option (Option Nat × State) :=
  if vtx_attr_group < 8 then
    if (s.s_attr_dirty >>> vtx_attr_group) &&& 1 ≠ 0 then
      let uid : VertexLoaderUID := ⟨s.g_VtxDesc, s.g_VtxAttr vtx_attr_group⟩
      match mapFind s.s_vertex_loader_map uid with
      | some loader =>
        some (some loader,
          { s with
            s_VertexLoaders := Function.update s.s_VertexLoaders vtx_attr_group (some loader)
            s_attr_dirty := s.s_attr_dirty &&& (0xFFFFFFFF ^^^ (1 <<< vtx_attr_group)) })
      | none =>
        let loader := env.new_VertexLoader s vtx_attr_group
        some (some loader,
          { s with
            s_vertex_loader_map := mapAssign s.s_vertex_loader_map uid loader
            numVertexLoaders := INCSTAT s.numVertexLoaders
            s_VertexLoaders := Function.update s.s_VertexLoaders vtx_attr_group (some loader)
            s_attr_dirty := s.s_attr_dirty &&& (0xFFFFFFFF ^^^ (1 <<< vtx_attr_group)) })
    else
      some (s.s_VertexLoaders vtx_attr_group, s)
  else
    none

/-- Source function `GetVertexSize(int vtx_attr_group)`: `none` when the refreshed loader is
the null pointer, which the source dereferences. -/
def GetVertexSize (env : LoaderEnv) (s : State) (vtx_attr_group : Nat) : Option (Nat × State) :=
  match RefreshLoader env s vtx_attr_group with
  | some (some loader, s1) => some (env.GetVertexSize loader, s1)
  | _ => none

/-- The value of an `int` expression whose mathematical value is `x`, wrapped to 32 bits. -/
def wrapInt32 (x : Int) : Int :=
  (x + 2 ^ 31) % 2 ^ 32 - 2 ^ 31

/-- The conversion of an `int` to the 64-bit `size_t`. -/
def toSizeT (x : Int) : Nat :=
  (x % 2 ^ 64).toNat

/-- Source function `RunVertices(vtx_attr_group, primitive, count, buf_size, skip_drawing)`:
the returned flag and the state after the call, `none` when the refreshed loader is the null
pointer. `cull_all` is the value of `bpmem.genMode.cullmode == GenMode::CULL_ALL` at the time
of the call. `count * loader->GetVertexSize()` is an `int` product (wrapped to 32 bits here;
an overflow is undefined in the source) that is converted to the 64-bit `size_t` of `size`;
`(u32)size` keeps the low 32 bits. -/
def RunVertices (env : LoaderEnv) (cull_all : Bool) (s : State) (vtx_attr_group : Nat)
    (primitive count : Int) (buf_size : Nat) (skip_drawing : Bool) : Option (Bool × State) :=
  if count = 0 then
    some (true, s)
  else
    match RefreshLoader env s vtx_attr_group with
    | some (some loader, s1) =>
      let size := toSizeT (wrapInt32 (count * (env.GetVertexSize loader : Int)))
      if buf_size < size then
        some (false, s1)
      else if skip_drawing || (cull_all && decide (primitive < 5)) then
        some (true, { s1 with calls := s1.calls ++ [Call.DataSkip (size % 2 ^ 32)] })
      else
        let native := env.GetNativeVertexFormat loader
        let s2 :=
          if native ≠ s1.s_current_vtx_fmt then
            { s1 with calls := s1.calls ++ [Call.Flush s1.s_current_vtx_fmt] }
          else s1
        some (true,
          { s2 with
            s_current_vtx_fmt := native
            calls := s2.calls ++
              [Call.PrepareForAdditionalData primitive count (env.stride loader),
               Call.LoaderRunVertices loader (s2.g_VtxAttr vtx_attr_group) primitive count,
               Call.AddIndices primitive count,
               Call.AddStatNumPrims count,
               Call.IncStatNumPrimitiveJoins] })
    | _ => none

/-- One call into the vertex-loader manager. -/
inductive Op where
  | LoadCPReg (sub_cmd value : Nat)
  | RefreshLoader (vtx_attr_group : Nat)
  | GetVertexSize (vtx_attr_group : Nat)
  | RunVertices (cull_all : Bool) (vtx_attr_group : Nat) (primitive count : Int)
      (buf_size : Nat) (skip_drawing : Bool)
deriving DecidableEq, Repr

/-- The state after one call, `none` when the call does not complete. -/
def step (debug : Bool) (GetPointer : Nat → Nat) (env : LoaderEnv) (s : State) :
    Op → Option State
  | Op.LoadCPReg sub_cmd value => LoadCPReg debug GetPointer s sub_cmd value
  | Op.RefreshLoader g => (RefreshLoader env s g).map Prod.snd
  | Op.GetVertexSize g => (GetVertexSize env s g).map Prod.snd
  | Op.RunVertices cull_all g primitive count buf_size skip_drawing =>
    (RunVertices env cull_all s g primitive count buf_size skip_drawing).map Prod.snd

/-- The state after a sequence of calls in program order. -/
def run (debug : Bool) (GetPointer : Nat → Nat) (env : LoaderEnv) (s : State) :
    List Op → Option State
  | [] => some s
  | op :: rest => (step debug GetPointer env s op).bind fun s1 =>
      run debug GetPointer env s1 rest

/-- The key `VertexLoaderUID(g_VtxDesc, g_VtxAttr[g])` of group `g` in the current state. -/
def currentUID (s : State) (g : Nat) : VertexLoaderUID :=
  ⟨s.g_VtxDesc, s.g_VtxAttr g⟩

/-- The slot invariant: every group `g < 8` whose dirty bit is clear has in its slot the loader
that the cache stores under the current key of the group. -/
def SlotsValid (s : State) : Prop :=
  ∀ g, g < 8 → s.s_attr_dirty.testBit g = false →
    ∃ p, mapFind s.s_vertex_loader_map (currentUID s g) = some p ∧
      s.s_VertexLoaders g = some p

/-- An allocator for examples: the address after the largest one in the cache. -/
def bumpAlloc (s : State) (_g : Nat) : Nat :=
  (s.s_vertex_loader_map.map Prod.snd).foldr max 0 + 1

/-- A loader environment for examples: every loader has vertex size 12, stride 12 and native
format at its own address. -/
def exampleEnv : LoaderEnv where
  new_VertexLoader := bumpAlloc
  GetVertexSize := fun _ => 12
  GetNativeVertexFormat := fun p => some p
  stride := fun _ => 12

/-! ## Teardown, restore from a dump, Wiimote transport -/

/-- Source function `Shutdown()`: the map is cleared, which releases every loader it owns, and
the native vertex format cache is cleared by `VertexLoader`. The mutex is not modelled. -/
def Shutdown (s : State) : State :=
  { s with
    s_vertex_loader_map := []
    calls := s.calls ++ [Call.ClearNativeVertexFormatCache] }

/-- The offsets of the dump that a restore writes back: both descriptor halves, the 24
attribute sub-fields and the 32 array bases and strides. -/
def restoreOffsets : List Nat :=
  [0x50, 0x60] ++ (List.range 8).map (fun i => 0x70 + i) ++
    (List.range 8).map (fun i => 0x80 + i) ++ (List.range 8).map (fun i => 0x90 + i) ++
    (List.range 32).map (fun i => 0xA0 + i)

/-- Source function `WiimoteHidapi::IORead(u8* buf)` after the call of `HidInterface::Read`:
`r` is the `s32` that `Read` returned and `buf` the buffer as `Read` left it; the result is the
returned `int` and the buffer. The constants `WM_SET_REPORT` and `WM_BT_INPUT` are not among
the sources and are parameters; the byte stored is their OR as a `u8`. `result += 1` is an
`int` addition (wrapped to 32 bits here; an overflow is undefined in the source). The error log
line is not modelled. -/
def IORead (WM_SET_REPORT WM_BT_INPUT : Nat) (r : Int) (buf : Nat → Nat) :
    Int × (Nat → Nat) :=
  if r = -1 then
    (0, buf)
  else if r = 0 then
    (-1, buf)
  else
    (wrapInt32 (r + 1), Function.update buf 0 ((WM_SET_REPORT ||| WM_BT_INPUT) % 2 ^ 8))

/-! ## Bit-level facts about the masks -/

theorem testBit_hi_mask (i : Nat) :
    (0xFFFFFFFFFFFE0000 : Nat).testBit i = (decide (17 ≤ i) && decide (i < 64)) := by
  have h : (0xFFFFFFFFFFFE0000 : Nat) = (2 ^ 47 - 1) <<< 17 := by decide
  rw [h, Nat.testBit_shiftLeft, Nat.testBit_two_pow_sub_one]
  by_cases h1 : 17 ≤ i <;> by_cases h2 : i < 64 <;> simp [h1, h2] <;> omega

theorem testBit_lo_mask (i : Nat) :
    (0x1FFFF : Nat).testBit i = decide (i < 17) := by
  have h : (0x1FFFF : Nat) = 2 ^ 17 - 1 := by decide
  rw [h, Nat.testBit_two_pow_sub_one]

theorem testBit_of_lt_of_le {x n i : Nat} (hx : x < 2 ^ n) (hi : n ≤ i) :
    x.testBit i = false :=
  Nat.testBit_lt_two_pow (lt_of_lt_of_le hx (Nat.pow_le_pow_right (by decide) hi))

theorem and_hi_mask (d : Nat) (hd : d < 2 ^ 64) :
    d &&& 0xFFFFFFFFFFFE0000 = d / 2 ^ 17 * 2 ^ 17 := by
  apply Nat.eq_of_testBit_eq
  intro i
  rw [Nat.testBit_and, testBit_hi_mask, Nat.mul_comm, Nat.testBit_mul_pow_two,
    ← Nat.shiftRight_eq_div_pow, Nat.testBit_shiftRight]
  by_cases h1 : 17 ≤ i
  · have h3 : 17 + (i - 17) = i := by omega
    by_cases h2 : i < 64
    · simp [h1, h2, h3]
    · simp [h1, h2, h3, testBit_of_lt_of_le hd (not_lt.mp h2)]
  · simp [h1]

theorem shl17_u64 (v : Nat) (hv : v < 2 ^ 32) : (v <<< 17) % 2 ^ 64 = v * 2 ^ 17 := by
  rw [Nat.shiftLeft_eq]
  apply Nat.mod_eq_of_lt
  have : v * 2 ^ 17 < 2 ^ 32 * 2 ^ 17 := Nat.mul_lt_mul_of_pos_right hv (by decide)
  omega

theorem desc_lo_then_hi (d a b : Nat) (ha : a < 2 ^ 17) (hb : b < 2 ^ 32) :
    ((d &&& 0xFFFFFFFFFFFE0000 ||| a) &&& 0x1FFFF) ||| ((b <<< 17) % 2 ^ 64) =
      a ||| (b <<< 17) := by
  rw [shl17_u64 b hb, ← Nat.shiftLeft_eq]
  apply Nat.eq_of_testBit_eq
  intro i
  simp only [Nat.testBit_or, Nat.testBit_and, testBit_hi_mask, testBit_lo_mask,
    Nat.testBit_shiftLeft]
  by_cases h1 : i < 17
  · have : ¬ 17 ≤ i := by omega
    simp [h1, this]
  · have h2 : 17 ≤ i := by omega
    simp [h1, h2, testBit_of_lt_of_le ha h2]

theorem desc_hi_then_lo (d a b : Nat) (hb : b < 2 ^ 32) :
    (((d &&& 0x1FFFF) ||| ((b <<< 17) % 2 ^ 64)) &&& 0xFFFFFFFFFFFE0000) ||| a =
      a ||| (b <<< 17) := by
  rw [shl17_u64 b hb, ← Nat.shiftLeft_eq]
  apply Nat.eq_of_testBit_eq
  intro i
  simp only [Nat.testBit_or, Nat.testBit_and, testBit_hi_mask, testBit_lo_mask,
    Nat.testBit_shiftLeft]
  by_cases h1 : i < 17
  · have : ¬ 17 ≤ i := by omega
    simp [h1, this]
  · have h2 : 17 ≤ i := by omega
    by_cases h3 : i < 64
    · simp [h1, h2, h3, Bool.or_comm]
    · have h4 : 32 ≤ i - 17 := by omega
      simp [h1, h2, h3, testBit_of_lt_of_le hb h4]

theorem split_lo32 (a b : Nat) (ha : a < 2 ^ 17) :
    (a ||| (b <<< 17)) % 2 ^ 32 = a ||| ((b % 2 ^ 15) <<< 17) := by
  apply Nat.eq_of_testBit_eq
  intro i
  simp only [Nat.testBit_or, Nat.testBit_mod_two_pow, Nat.testBit_shiftLeft]
  by_cases h1 : 17 ≤ i
  · by_cases h2 : i < 32
    · have : i - 17 < 15 := by omega
      simp [h1, h2, this]
    · have : ¬ i - 17 < 15 := by omega
      simp [h1, h2, this, testBit_of_lt_of_le ha h1]
  · have : i < 32 := by omega
    simp [h1, this]

theorem split_lo17 (a b : Nat) (ha : a < 2 ^ 17) :
    ((a ||| (b <<< 17)) % 2 ^ 32) % 2 ^ 17 = a := by
  apply Nat.eq_of_testBit_eq
  intro i
  simp only [Nat.testBit_or, Nat.testBit_mod_two_pow, Nat.testBit_shiftLeft]
  by_cases h1 : 17 ≤ i
  · have : ¬ i < 17 := by omega
    simp [this, testBit_of_lt_of_le ha h1]
  · have h2 : i < 32 := by omega
    have h3 : i < 17 := by omega
    simp [h1, h2, h3]

theorem split_hi (a b : Nat) (ha : a < 2 ^ 17) (hb : b < 2 ^ 32) :
    ((a ||| (b <<< 17)) >>> 17) % 2 ^ 32 = b := by
  apply Nat.eq_of_testBit_eq
  intro i
  simp only [Nat.testBit_or, Nat.testBit_mod_two_pow, Nat.testBit_shiftLeft,
    Nat.testBit_shiftRight]
  have h1 : 17 ≤ 17 + i := by omega
  have h2 : 17 + i - 17 = i := by omega
  by_cases h3 : i < 32
  · simp [h3, h2, testBit_of_lt_of_le ha h1]
  · simp [h3, testBit_of_lt_of_le hb (not_lt.mp h3)]

theorem FillCPMemoryArray_0x50 (s : State) (memory : Nat → Nat) :
    FillCPMemoryArray s memory 0x50 = s.g_VtxDesc % 2 ^ 32 := by
  simp [FillCPMemoryArray, List.range_succ, Function.update]

theorem FillCPMemoryArray_0x60 (s : State) (memory : Nat → Nat) :
    FillCPMemoryArray s memory 0x60 = (s.g_VtxDesc >>> 17) % 2 ^ 32 := by
  simp [FillCPMemoryArray, List.range_succ, Function.update]


/-! ## The descriptor rows `0x50` and `0x60` -/

theorem LoadCPReg_0x50 (debug : Bool) (GetPointer : Nat → Nat) (s : State) (v : Nat) :
    LoadCPReg debug GetPointer s 0x50 v =
      some { s with
        g_VtxDesc := (s.g_VtxDesc &&& 0xFFFFFFFFFFFE0000) ||| v
        s_attr_dirty := 0xFF } := rfl

theorem LoadCPReg_0x60 (debug : Bool) (GetPointer : Nat → Nat) (s : State) (v : Nat) :
    LoadCPReg debug GetPointer s 0x60 v =
      some { s with
        g_VtxDesc := (s.g_VtxDesc &&& 0x1FFFF) ||| ((v <<< 17) % 2 ^ 64)
        s_attr_dirty := 0xFF } := rfl

/-- Claim C1. For a 64-bit descriptor and a 32-bit value, `LoadCPReg(0x50, v)` leaves the
descriptor equal to the old descriptor with its low 17 bits cleared (all of bits 17..63 kept),
OR-ed with `v`; `LoadCPReg(0x60, v)` leaves it equal to the old low 17 bits OR-ed with `v`
shifted left by 17 as a 64-bit quantity (`v * 2 ^ 17`, nothing truncated). -/
theorem C1_descriptor_halves (debug : Bool) (GetPointer : Nat → Nat) (s : State) (v : Nat)
    (hd : s.g_VtxDesc < 2 ^ 64) (hv : v < 2 ^ 32) :
    (∃ s1, LoadCPReg debug GetPointer s 0x50 v = some s1 ∧
      s1.g_VtxDesc = (s.g_VtxDesc / 2 ^ 17 * 2 ^ 17) ||| v) ∧
    (∃ s2, LoadCPReg debug GetPointer s 0x60 v = some s2 ∧
      s2.g_VtxDesc = (s.g_VtxDesc &&& 0x1FFFF) ||| (v * 2 ^ 17)) := by
  refine ⟨⟨_, LoadCPReg_0x50 debug GetPointer s v, ?_⟩,
    ⟨_, LoadCPReg_0x60 debug GetPointer s v, ?_⟩⟩
  · show (s.g_VtxDesc &&& 0xFFFFFFFFFFFE0000) ||| v = _
    rw [and_hi_mask _ hd]
  · show (s.g_VtxDesc &&& 0x1FFFF) ||| ((v <<< 17) % 2 ^ 64) = _
    rw [shl17_u64 v hv]

/-- Instance of C1: descriptor `0x3FFFF`, value `0x5`. -/
theorem C1_descriptor_halves_witness :
    (∃ s1, LoadCPReg false id { State.zero with g_VtxDesc := 0x3FFFF } 0x50 0x5 = some s1 ∧
      s1.g_VtxDesc = (0x3FFFF / 2 ^ 17 * 2 ^ 17) ||| 0x5) ∧
    (∃ s2, LoadCPReg false id { State.zero with g_VtxDesc := 0x3FFFF } 0x60 0x5 = some s2 ∧
      s2.g_VtxDesc = (0x3FFFF &&& 0x1FFFF) ||| (0x5 * 2 ^ 17)) :=
  C1_descriptor_halves false id { State.zero with g_VtxDesc := 0x3FFFF } 0x5
    (by decide) (by decide)

/-- Claim C6. `LoadCPReg(0x50, v)` and `LoadCPReg(0x60, v)` each leave the dirty mask equal to
`0xFF`, whatever the value and the prior mask. -/
theorem C6_descriptor_write_dirties_all (debug : Bool) (GetPointer : Nat → Nat) (s : State)
    (v : Nat) :
    (∃ s1, LoadCPReg debug GetPointer s 0x50 v = some s1 ∧ s1.s_attr_dirty = 0xFF) ∧
    (∃ s2, LoadCPReg debug GetPointer s 0x60 v = some s2 ∧ s2.s_attr_dirty = 0xFF) :=
  ⟨⟨_, LoadCPReg_0x50 debug GetPointer s v, rfl⟩, ⟨_, LoadCPReg_0x60 debug GetPointer s v, rfl⟩⟩


/-- Claim C2, refuted as stated: on a zero descriptor `LoadCPReg(0x50, 0x20000)` sets bit 17,
a bit of the upper part that was clear before the write. -/
theorem C2_counterexample :
    (0x20000 < 2 ^ 32) ∧
    (LoadCPReg false id State.zero 0x50 0x20000).map (fun s1 => s1.g_VtxDesc.testBit 17) =
      some true ∧
    State.zero.g_VtxDesc.testBit 17 = false := by
  decide

/-- Claim C2, amended. After `LoadCPReg(0x50, v)` every bit at a position `≥ 17` of the
descriptor is the OR of that bit of the old descriptor and that bit of `v` (hence no
previously set bit is lost, and the bits are exactly the old ones whenever `v < 2 ^ 17`);
after `LoadCPReg(0x60, v)` the low 17 bits are exactly those of the old descriptor. -/
theorem C2_descriptor_halves_frame (debug : Bool) (GetPointer : Nat → Nat) (s : State)
    (v : Nat) (hd : s.g_VtxDesc < 2 ^ 64) :
    (∃ s1, LoadCPReg debug GetPointer s 0x50 v = some s1 ∧
      (∀ i, 17 ≤ i → s1.g_VtxDesc.testBit i = (s.g_VtxDesc.testBit i || v.testBit i)) ∧
      (v < 2 ^ 17 → ∀ i, 17 ≤ i → s1.g_VtxDesc.testBit i = s.g_VtxDesc.testBit i)) ∧
    (∃ s2, LoadCPReg debug GetPointer s 0x60 v = some s2 ∧
      ∀ i, i < 17 → s2.g_VtxDesc.testBit i = s.g_VtxDesc.testBit i) := by
  have key : ∀ i, 17 ≤ i →
      ((s.g_VtxDesc &&& 0xFFFFFFFFFFFE0000) ||| v).testBit i =
        (s.g_VtxDesc.testBit i || v.testBit i) := by
    intro i hi
    rw [Nat.testBit_or, Nat.testBit_and, testBit_hi_mask]
    by_cases h : i < 64
    · simp [hi, h]
    · simp [hi, h, testBit_of_lt_of_le hd (not_lt.mp h)]
  refine ⟨⟨_, LoadCPReg_0x50 debug GetPointer s v, key, ?_⟩,
    ⟨_, LoadCPReg_0x60 debug GetPointer s v, ?_⟩⟩
  · intro hv i hi
    show ((s.g_VtxDesc &&& 0xFFFFFFFFFFFE0000) ||| v).testBit i = _
    rw [key i hi, testBit_of_lt_of_le hv hi, Bool.or_false]
  · intro i hi
    show ((s.g_VtxDesc &&& 0x1FFFF) ||| ((v <<< 17) % 2 ^ 64)).testBit i = _
    have h17 : ¬ 17 ≤ i := by omega
    rw [Nat.testBit_or, Nat.testBit_and, testBit_lo_mask, Nat.testBit_mod_two_pow,
      Nat.testBit_shiftLeft]
    simp [hi, h17]

/-- Instance of C2 (amended): descriptor `0x3FFFF`, value `0x5`. -/
theorem C2_descriptor_halves_frame_witness :
    (∃ s1, LoadCPReg false id { State.zero with g_VtxDesc := 0x3FFFF } 0x50 0x5 = some s1 ∧
      (∀ i, 17 ≤ i → s1.g_VtxDesc.testBit i =
        (({ State.zero with g_VtxDesc := 0x3FFFF } : State).g_VtxDesc.testBit i ||
          (0x5 : Nat).testBit i)) ∧
      (0x5 < 2 ^ 17 → ∀ i, 17 ≤ i → s1.g_VtxDesc.testBit i =
        ({ State.zero with g_VtxDesc := 0x3FFFF } : State).g_VtxDesc.testBit i)) ∧
    (∃ s2, LoadCPReg false id { State.zero with g_VtxDesc := 0x3FFFF } 0x60 0x5 = some s2 ∧
      ∀ i, i < 17 → s2.g_VtxDesc.testBit i =
        ({ State.zero with g_VtxDesc := 0x3FFFF } : State).g_VtxDesc.testBit i) :=
  C2_descriptor_halves_frame false id { State.zero with g_VtxDesc := 0x3FFFF } 0x5 (by decide)

/-- Claim C3, refuted as stated: after `LoadCPReg(0x50, 0)` and `LoadCPReg(0x60, 1)`, in either
order, `FillCPMemoryArray` stores `0x20000` in `memory[0x50]`, not the value `0` written to the
low half. -/
theorem C3_counterexample :
    (0 < 2 ^ 17) ∧ (1 < 2 ^ 32) ∧
    (LoadCPRegs false id State.zero [(0x50, 0), (0x60, 1)]).map
      (fun s1 => FillCPMemoryArray s1 (fun _ => 0) 0x50) = some 0x20000 ∧
    (LoadCPRegs false id State.zero [(0x60, 1), (0x50, 0)]).map
      (fun s1 => FillCPMemoryArray s1 (fun _ => 0) 0x50) = some 0x20000 := by
  decide

/-- Claim C3, amended. From any register file, for `a < 2 ^ 17` and a 32-bit `b`, after
`LoadCPReg(0x50, a)` and `LoadCPReg(0x60, b)` in either order, `FillCPMemoryArray` writes
`memory[0x60] = b` and `memory[0x50] = a ||| ((b % 2 ^ 15) <<< 17)`, the low 32 bits of the
descriptor: its low 17 bits are `a`, and bits 17..31 repeat the low 15 bits of `b`. -/
theorem C3_descriptor_round_trip (debug : Bool) (GetPointer : Nat → Nat) (s : State)
    (a b : Nat) (ha : a < 2 ^ 17) (hb : b < 2 ^ 32) (ws : List (Nat × Nat))
    (hws : ws = [(0x50, a), (0x60, b)] ∨ ws = [(0x60, b), (0x50, a)]) :
    ∃ s1, LoadCPRegs debug GetPointer s ws = some s1 ∧
      ∀ memory : Nat → Nat,
        FillCPMemoryArray s1 memory 0x60 = b ∧
        FillCPMemoryArray s1 memory 0x50 = a ||| ((b % 2 ^ 15) <<< 17) ∧
        FillCPMemoryArray s1 memory 0x50 % 2 ^ 17 = a := by
  have fin : ∀ s1 : State, s1.g_VtxDesc = a ||| (b <<< 17) → ∀ memory : Nat → Nat,
      FillCPMemoryArray s1 memory 0x60 = b ∧
      FillCPMemoryArray s1 memory 0x50 = a ||| ((b % 2 ^ 15) <<< 17) ∧
      FillCPMemoryArray s1 memory 0x50 % 2 ^ 17 = a := by
    intro s1 h1 memory
    rw [FillCPMemoryArray_0x50, FillCPMemoryArray_0x60, h1]
    exact ⟨split_hi a b ha hb, split_lo32 a b ha, split_lo17 a b ha⟩
  rcases hws with rfl | rfl
  · refine ⟨_, rfl, fin _ ?_⟩
    exact desc_lo_then_hi s.g_VtxDesc a b ha hb
  · refine ⟨_, rfl, fin _ ?_⟩
    exact desc_hi_then_lo s.g_VtxDesc a b hb

/-- Instance of C3 (amended): `a = 0x1ABCD`, `b = 0x12345678`, low half written first. -/
theorem C3_descriptor_round_trip_witness :
    ∃ s1, LoadCPRegs true id State.zero [(0x50, 0x1ABCD), (0x60, 0x12345678)] = some s1 ∧
      ∀ memory : Nat → Nat,
        FillCPMemoryArray s1 memory 0x60 = 0x12345678 ∧
        FillCPMemoryArray s1 memory 0x50 = 0x1ABCD ||| ((0x12345678 % 2 ^ 15) <<< 17) ∧
        FillCPMemoryArray s1 memory 0x50 % 2 ^ 17 = 0x1ABCD :=
  C3_descriptor_round_trip true id State.zero 0x1ABCD 0x12345678 (by decide) (by decide)
    [(0x50, 0x1ABCD), (0x60, 0x12345678)] (Or.inl rfl)


/-! ## The attribute rows `0x70`, `0x80`, `0x90` -/

theorem LoadCPReg_attr (debug : Bool) (GetPointer : Nat → Nat) (s : State) (g k v : Nat)
    (hg : g < 8) (hk : k < 3) :
    LoadCPReg debug GetPointer s (0x70 + 0x10 * k + g) v =
      some { s with
        g_VtxAttr := Function.update s.g_VtxAttr g ((s.g_VtxAttr g).setField k v)
        s_attr_dirty := s.s_attr_dirty ||| (1 <<< g) } := by
  interval_cases g <;> interval_cases k <;> cases debug <;> rfl

theorem testBit_or_one_shiftLeft (d g j : Nat) :
    (d ||| (1 <<< g)).testBit j = (d.testBit j || decide (g = j)) := by
  rw [Nat.testBit_or, Nat.one_shiftLeft, Nat.testBit_two_pow]

/-- Claim C5. For a group `g < 8` and a sub-field `k < 3`, `LoadCPReg(0x70 + 0x10*k + g, v)`
sets dirty bit `g`, leaves every other dirty bit as it was, and leaves the active loader slots
and the loader cache unchanged. -/
theorem C5_attr_write_dirties_group (debug : Bool) (GetPointer : Nat → Nat) (s : State)
    (g k v : Nat) (hg : g < 8) (hk : k < 3) :
    ∃ s1, LoadCPReg debug GetPointer s (0x70 + 0x10 * k + g) v = some s1 ∧
      s1.s_attr_dirty.testBit g = true ∧
      (∀ j, j ≠ g → s1.s_attr_dirty.testBit j = s.s_attr_dirty.testBit j) ∧
      s1.s_VertexLoaders = s.s_VertexLoaders ∧
      s1.s_vertex_loader_map = s.s_vertex_loader_map := by
  refine ⟨_, LoadCPReg_attr debug GetPointer s g k v hg hk, ?_, ?_, rfl, rfl⟩
  · show (s.s_attr_dirty ||| (1 <<< g)).testBit g = true
    simp [testBit_or_one_shiftLeft]
  · intro j hj
    show (s.s_attr_dirty ||| (1 <<< g)).testBit j = _
    have : ¬ g = j := fun h => hj h.symm
    rw [testBit_or_one_shiftLeft]
    simp [this]

/-- Instance of C5: group 3, sub-field 1 (command `0x83`), from the all-dirty zero state. -/
theorem C5_attr_write_dirties_group_witness :
    ∃ s1, LoadCPReg true id State.zero (0x70 + 0x10 * 1 + 3) 0xDEADBEEF = some s1 ∧
      s1.s_attr_dirty.testBit 3 = true ∧
      (∀ j, j ≠ 3 → s1.s_attr_dirty.testBit j = State.zero.s_attr_dirty.testBit j) ∧
      s1.s_VertexLoaders = State.zero.s_VertexLoaders ∧
      s1.s_vertex_loader_map = State.zero.s_vertex_loader_map :=
  C5_attr_write_dirties_group true id State.zero 3 1 0xDEADBEEF (by decide) (by decide)

/-- Claim C7. For a group `g < 8` and a sub-field `k < 3`, `LoadCPReg(0x70 + 0x10*k + g, v)`
stores `v` unchanged in sub-field `k` of `g_VtxAttr[g]` and alters nothing else in the register
file: the other two sub-fields of group `g`, every other group, the descriptor, the array bases
and the array strides keep their values. -/
theorem C7_attr_write_frame (debug : Bool) (GetPointer : Nat → Nat) (s : State)
    (g k v : Nat) (hg : g < 8) (hk : k < 3) :
    ∃ s1, LoadCPReg debug GetPointer s (0x70 + 0x10 * k + g) v = some s1 ∧
      (s1.g_VtxAttr g).field k = v ∧
      (∀ k2, k2 < 3 → k2 ≠ k → (s1.g_VtxAttr g).field k2 = (s.g_VtxAttr g).field k2) ∧
      (∀ j, j ≠ g → s1.g_VtxAttr j = s.g_VtxAttr j) ∧
      s1.g_VtxDesc = s.g_VtxDesc ∧
      s1.arraybases = s.arraybases ∧
      s1.arraystrides = s.arraystrides := by
  refine ⟨_, LoadCPReg_attr debug GetPointer s g k v hg hk, ?_, ?_, ?_, rfl, rfl, rfl⟩
  · show (Function.update s.g_VtxAttr g ((s.g_VtxAttr g).setField k v) g).field k = v
    rw [Function.update_same]
    interval_cases k <;> rfl
  · intro k2 hk2 hne
    show (Function.update s.g_VtxAttr g ((s.g_VtxAttr g).setField k v) g).field k2 = _
    rw [Function.update_same]
    interval_cases k <;> interval_cases k2 <;> first | rfl | exact absurd rfl hne
  · intro j hj
    show Function.update s.g_VtxAttr g ((s.g_VtxAttr g).setField k v) j = _
    rw [Function.update_noteq hj]

/-- Instance of C7: group 5, sub-field 2 (command `0x95`). -/
theorem C7_attr_write_frame_witness :
    ∃ s1, LoadCPReg false id State.zero (0x70 + 0x10 * 2 + 5) 0xFFFFFFFF = some s1 ∧
      (s1.g_VtxAttr 5).field 2 = 0xFFFFFFFF ∧
      (∀ k2, k2 < 3 → k2 ≠ 2 → (s1.g_VtxAttr 5).field k2 = (State.zero.g_VtxAttr 5).field k2) ∧
      (∀ j, j ≠ 5 → s1.g_VtxAttr j = State.zero.g_VtxAttr j) ∧
      s1.g_VtxDesc = State.zero.g_VtxDesc ∧
      s1.arraybases = State.zero.arraybases ∧
      s1.arraystrides = State.zero.arraystrides :=
  C7_attr_write_frame false id State.zero 5 2 0xFFFFFFFF (by decide) (by decide)

/-! ## The array rows `0xA0`, `0xB0` -/

theorem LoadCPReg_arraybase (debug : Bool) (GetPointer : Nat → Nat) (s : State) (i v : Nat)
    (hi : i < 16) :
    LoadCPReg debug GetPointer s (0xA0 + i) v =
      some { s with
        arraybases := Function.update s.arraybases i v
        cached_arraybases := Function.update s.cached_arraybases i (GetPointer v) } := by
  interval_cases i <;> rfl

theorem LoadCPReg_arraystride (debug : Bool) (GetPointer : Nat → Nat) (s : State) (i v : Nat)
    (hi : i < 16) :
    LoadCPReg debug GetPointer s (0xB0 + i) v =
      some { s with arraystrides := Function.update s.arraystrides i (v &&& 0xFF) } := by
  interval_cases i <;> rfl

/-- Claim C8. For an index `i < 16`, `LoadCPReg(0xB0 + i, v)` stores `v AND 0xFF` (that is,
`v mod 256`) in `arraystrides[i]` (writing `0x1FF` stores `0xFF`) and leaves every other
stride, every array base, the descriptor, the attribute groups and the dirty mask unchanged. -/
theorem C8_stride_write_masked (debug : Bool) (GetPointer : Nat → Nat) (s : State)
    (i v : Nat) (hi : i < 16) :
    (∃ s1, LoadCPReg debug GetPointer s (0xB0 + i) v = some s1 ∧
      s1.arraystrides i = v &&& 0xFF ∧
      s1.arraystrides i = v % 256 ∧
      (∀ j, j ≠ i → s1.arraystrides j = s.arraystrides j) ∧
      s1.arraybases = s.arraybases ∧
      s1.g_VtxDesc = s.g_VtxDesc ∧
      s1.g_VtxAttr = s.g_VtxAttr ∧
      s1.s_attr_dirty = s.s_attr_dirty) ∧
    (∃ s2, LoadCPReg debug GetPointer s (0xB0 + i) 0x1FF = some s2 ∧
      s2.arraystrides i = 0xFF) := by
  refine ⟨⟨_, LoadCPReg_arraystride debug GetPointer s i v hi, ?_, ?_, ?_, rfl, rfl, rfl, rfl⟩,
    ⟨_, LoadCPReg_arraystride debug GetPointer s i 0x1FF hi, ?_⟩⟩
  · show Function.update s.arraystrides i (v &&& 0xFF) i = _
    rw [Function.update_same]
  · show Function.update s.arraystrides i (v &&& 0xFF) i = _
    rw [Function.update_same]
    exact Nat.and_pow_two_sub_one_eq_mod v 8
  · intro j hj
    show Function.update s.arraystrides i (v &&& 0xFF) j = _
    rw [Function.update_noteq hj]
  · show Function.update s.arraystrides i (0x1FF &&& 0xFF) i = _
    rw [Function.update_same]
    rfl

/-- Instance of C8: stride register 9 (command `0xB9`), value `0x12345`. -/
theorem C8_stride_write_masked_witness :
    (∃ s1, LoadCPReg false id State.zero (0xB0 + 9) 0x12345 = some s1 ∧
      s1.arraystrides 9 = 0x12345 &&& 0xFF ∧
      s1.arraystrides 9 = 0x12345 % 256 ∧
      (∀ j, j ≠ 9 → s1.arraystrides j = State.zero.arraystrides j) ∧
      s1.arraybases = State.zero.arraybases ∧
      s1.g_VtxDesc = State.zero.g_VtxDesc ∧
      s1.g_VtxAttr = State.zero.g_VtxAttr ∧
      s1.s_attr_dirty = State.zero.s_attr_dirty) ∧
    (∃ s2, LoadCPReg false id State.zero (0xB0 + 9) 0x1FF = some s2 ∧
      s2.arraystrides 9 = 0xFF) :=
  C8_stride_write_masked false id State.zero 9 0x12345 (by decide)


/-! ## Decoding of the command byte -/

theorem testBit_F0 (i : Nat) : (0xF0 : Nat).testBit i = (decide (4 ≤ i) && decide (i < 8)) := by
  have h : (0xF0 : Nat) = (2 ^ 4 - 1) <<< 4 := by decide
  rw [h, Nat.testBit_shiftLeft, Nat.testBit_two_pow_sub_one]
  by_cases h1 : 4 ≤ i <;> by_cases h2 : i < 8 <;> simp [h1, h2] <;> omega

theorem and_F0_eq (c : Nat) : c &&& 0xF0 = 16 * (c / 16 % 16) := by
  apply Nat.eq_of_testBit_eq
  intro i
  have e1 : (16 : Nat) = 2 ^ 4 := by decide
  rw [Nat.testBit_and, testBit_F0, e1, Nat.testBit_mul_pow_two, Nat.testBit_mod_two_pow,
    ← Nat.shiftRight_eq_div_pow, Nat.testBit_shiftRight]
  by_cases h1 : 4 ≤ i
  · have h3 : 4 + (i - 4) = i := by omega
    by_cases h2 : i < 8
    · have : i - 4 < 4 := by omega
      simp [h1, h2, h3, this]
    · have : ¬ i - 4 < 4 := by omega
      simp [h1, h2, this]
  · simp [h1]

theorem and_7_eq (c : Nat) : c &&& 7 = c % 8 := Nat.and_pow_two_sub_one_eq_mod c 3

theorem and_F_eq (c : Nat) : c &&& 0xF = c % 16 := Nat.and_pow_two_sub_one_eq_mod c 4

theorem and_FF_eq (c : Nat) : c &&& 0xFF = c % 256 := Nat.and_pow_two_sub_one_eq_mod c 8

/-- What a completed `LoadCPReg` call does to each part of the state, by row. -/
theorem LoadCPReg_effect {debug : Bool} {GetPointer : Nat → Nat} {s s1 : State} {c v : Nat}
    (h : LoadCPReg debug GetPointer s c v = some s1) :
    s1.arraybases =
      (if c &&& 0xF0 = 0xA0 then Function.update s.arraybases (c &&& 0xF) v
        else s.arraybases) ∧
    s1.cached_arraybases =
      (if c &&& 0xF0 = 0xA0 then Function.update s.cached_arraybases (c &&& 0xF) (GetPointer v)
        else s.cached_arraybases) ∧
    s1.arraystrides =
      (if c &&& 0xF0 = 0xB0 then Function.update s.arraystrides (c &&& 0xF) (v &&& 0xFF)
        else s.arraystrides) ∧
    s1.g_VtxAttr =
      (if c &&& 0xF0 = 0x70 then
          Function.update s.g_VtxAttr (c &&& 7) ((s.g_VtxAttr (c &&& 7)).setField 0 v)
        else if c &&& 0xF0 = 0x80 then
          Function.update s.g_VtxAttr (c &&& 7) ((s.g_VtxAttr (c &&& 7)).setField 1 v)
        else if c &&& 0xF0 = 0x90 then
          Function.update s.g_VtxAttr (c &&& 7) ((s.g_VtxAttr (c &&& 7)).setField 2 v)
        else s.g_VtxAttr) := by
  unfold LoadCPReg at h
  split_ifs at h with h3 h4 h5 h6 h7 h8 h9 hA hB
  all_goals
    first
    | (cases Option.some.inj h
       simp [*])
    | (cases ha : _assert_ debug (decide (c &&& 0x0F < 8)) with
       | none => rw [ha] at h; cases h
       | some u =>
         rw [ha] at h
         cases Option.some.inj h
         simp [*, VAT.setField])


/-! ## Unrecognized commands -/

/-- Claim C10, refuted as stated: `0x150` lies outside `0x30..0xBF`, yet `LoadCPReg(0x150, 1)`
is decoded as row `0x50`: it changes the descriptor and the dirty mask. -/
theorem C10_counterexample :
    (0x150 < 2 ^ 32) ∧ ¬ (0x30 ≤ 0x150 ∧ 0x150 ≤ 0xBF) ∧
    (LoadCPReg false id State.zero 0x150 1).map State.g_VtxDesc = some 1 ∧
    State.zero.g_VtxDesc = 0 ∧
    (LoadCPReg false id State.zero 0x150 1).map State.s_attr_dirty = some 0xFF ∧
    State.zero.s_attr_dirty = 0 := by
  decide

/-- Claim C10, amended. A command whose low byte `c AND 0xFF` lies outside `0x30..0xBF` is
ignored: `LoadCPReg(c, v)` completes and returns the state it was given, so the descriptor, the
attribute groups, the array bases and strides, the cached pointers, the dirty mask, the loader
slots and the call log (nothing is forwarded) are all unchanged. -/
theorem C10_unrecognized_ignored (debug : Bool) (GetPointer : Nat → Nat) (s : State)
    (c v : Nat) (h : c &&& 0xFF < 0x30 ∨ 0xBF < c &&& 0xFF) :
    LoadCPReg debug GetPointer s c v = some s := by
  rw [and_FF_eq] at h
  unfold LoadCPReg
  simp only [and_F0_eq]
  have h3 : ¬ 16 * (c / 16 % 16) = 0x30 := by omega
  have h4 : ¬ 16 * (c / 16 % 16) = 0x40 := by omega
  have h5 : ¬ 16 * (c / 16 % 16) = 0x50 := by omega
  have h6 : ¬ 16 * (c / 16 % 16) = 0x60 := by omega
  have h7 : ¬ 16 * (c / 16 % 16) = 0x70 := by omega
  have h8 : ¬ 16 * (c / 16 % 16) = 0x80 := by omega
  have h9 : ¬ 16 * (c / 16 % 16) = 0x90 := by omega
  have hA : ¬ 16 * (c / 16 % 16) = 0xA0 := by omega
  have hB : ¬ 16 * (c / 16 % 16) = 0xB0 := by omega
  rw [if_neg h3, if_neg h4, if_neg h5, if_neg h6, if_neg h7, if_neg h8, if_neg h9, if_neg hA,
    if_neg hB]

/-- Instance of C10 (amended): command `0xC5` in a debug build. -/
theorem C10_unrecognized_ignored_witness :
    LoadCPReg true id State.zero 0xC5 0x1234 = some State.zero :=
  C10_unrecognized_ignored true id State.zero 0xC5 0x1234 (Or.inr (by decide))

/-! ## The cached array bases -/

theorem RecomputeCachedArraybases_arraybases (GetPointer : Nat → Nat) (s : State) :
    (RecomputeCachedArraybases GetPointer s).arraybases = s.arraybases := by
  simp [RecomputeCachedArraybases, List.range_succ]

theorem RecomputeCachedArraybases_valid (GetPointer : Nat → Nat) (s : State) :
    CachedBasesValid GetPointer (RecomputeCachedArraybases GetPointer s) := by
  intro i hi
  rw [RecomputeCachedArraybases_arraybases]
  interval_cases i <;> simp [RecomputeCachedArraybases, List.range_succ, Function.update]

theorem Init_valid (GetPointer : Nat → Nat) (s : State) :
    CachedBasesValid GetPointer (Init GetPointer s) :=
  RecomputeCachedArraybases_valid GetPointer _

theorem LoadCPReg_valid {debug : Bool} {GetPointer : Nat → Nat} {s s1 : State} {c v : Nat}
    (hs : CachedBasesValid GetPointer s) (h : LoadCPReg debug GetPointer s c v = some s1) :
    CachedBasesValid GetPointer s1 := by
  obtain ⟨hb, hc, -, -⟩ := LoadCPReg_effect h
  intro i hi
  rw [hb, hc]
  by_cases hrow : c &&& 0xF0 = 0xA0
  · rw [if_pos hrow, if_pos hrow]
    by_cases hidx : i = c &&& 0xF
    · subst hidx
      rw [Function.update_same, Function.update_same]
    · rw [Function.update_noteq hidx, Function.update_noteq hidx]
      exact hs i hi
  · rw [if_neg hrow, if_neg hrow]
    exact hs i hi

theorem LoadCPRegs_valid {debug : Bool} {GetPointer : Nat → Nat} (ws : List (Nat × Nat)) :
    ∀ {s s1 : State}, CachedBasesValid GetPointer s →
      LoadCPRegs debug GetPointer s ws = some s1 → CachedBasesValid GetPointer s1 := by
  induction ws with
  | nil =>
    intro s s1 hs h
    cases Option.some.inj h
    exact hs
  | cons w rest ih =>
    intro s s1 hs h
    obtain ⟨c, v⟩ := w
    unfold LoadCPRegs at h
    cases hstep : LoadCPReg debug GetPointer s c v with
    | none => rw [hstep] at h; cases h
    | some s2 =>
      rw [hstep] at h
      exact ih (LoadCPReg_valid hs hstep) h

/-- Claim C9. With the memory translation a fixed function `GetPointer`, every state reached
from `Init` by a sequence of `LoadCPReg` calls has `cached_arraybases[i] =
GetPointer(arraybases[i])` for all 16 indices: `Init` establishes it; `LoadCPReg(0xA0 + i, v)`
sets `arraybases[i] = v` and `cached_arraybases[i] = GetPointer(v)` and touches no other index;
and a command of any other row leaves both tables as they were. -/
theorem C9_cached_arraybases_invariant (debug : Bool) (GetPointer : Nat → Nat)
    (s0 s : State) (ws : List (Nat × Nat))
    (hrun : LoadCPRegs debug GetPointer (Init GetPointer s0) ws = some s) :
    CachedBasesValid GetPointer (Init GetPointer s0) ∧
    CachedBasesValid GetPointer s ∧
    (∀ (t : State) (i v : Nat), i < 16 →
      ∃ t1, LoadCPReg debug GetPointer t (0xA0 + i) v = some t1 ∧
        t1.arraybases i = v ∧ t1.cached_arraybases i = GetPointer v ∧
        ∀ j, j ≠ i → t1.arraybases j = t.arraybases j ∧
          t1.cached_arraybases j = t.cached_arraybases j) ∧
    (∀ (t t1 : State) (c v : Nat), c &&& 0xF0 ≠ 0xA0 →
      LoadCPReg debug GetPointer t c v = some t1 →
        t1.arraybases = t.arraybases ∧ t1.cached_arraybases = t.cached_arraybases) := by
  refine ⟨Init_valid GetPointer s0, LoadCPRegs_valid ws (Init_valid GetPointer s0) hrun, ?_, ?_⟩
  · intro t i v hi
    refine ⟨_, LoadCPReg_arraybase debug GetPointer t i v hi, ?_, ?_, ?_⟩
    · show Function.update t.arraybases i v i = v
      rw [Function.update_same]
    · show Function.update t.cached_arraybases i (GetPointer v) i = GetPointer v
      rw [Function.update_same]
    · intro j hj
      constructor
      · show Function.update t.arraybases i v j = _
        rw [Function.update_noteq hj]
      · show Function.update t.cached_arraybases i (GetPointer v) j = _
        rw [Function.update_noteq hj]
  · intro t t1 c v hrow h
    obtain ⟨hb, hc, -, -⟩ := LoadCPReg_effect h
    rw [hb, hc, if_neg hrow, if_neg hrow]
    exact ⟨rfl, rfl⟩

/-- Instance of C9: after `Init` and the write `LoadCPReg(0xA3, 0x1000)`, with the translation
`GetPointer(a) = a + 0x80000000`. -/
theorem C9_cached_arraybases_invariant_witness :
    CachedBasesValid (fun a => a + 0x80000000) (Init (fun a => a + 0x80000000) State.zero) ∧
    CachedBasesValid (fun a => a + 0x80000000)
      { Init (fun a => a + 0x80000000) State.zero with
        arraybases :=
          Function.update (Init (fun a => a + 0x80000000) State.zero).arraybases 3 0x1000
        cached_arraybases :=
          Function.update (Init (fun a => a + 0x80000000) State.zero).cached_arraybases 3
            (0x1000 + 0x80000000) } :=
  have h := C9_cached_arraybases_invariant true (fun a => a + 0x80000000) State.zero
    { Init (fun a => a + 0x80000000) State.zero with
      arraybases :=
        Function.update (Init (fun a => a + 0x80000000) State.zero).arraybases 3 0x1000
      cached_arraybases :=
        Function.update (Init (fun a => a + 0x80000000) State.zero).cached_arraybases 3
          (0x1000 + 0x80000000) }
    [(0xA0 + 3, 0x1000)]
    (by rw [LoadCPRegs, LoadCPReg_arraybase _ _ _ 3 _ (by decide)]; rfl)
  ⟨h.1, h.2.1⟩


/-! ## The dump after a sequence of writes -/

theorem FillCPMemoryArray_attr (s : State) (memory : Nat → Nat) (i : Nat) (hi : i < 8) :
    FillCPMemoryArray s memory (0x70 + i) = (s.g_VtxAttr i).g0 ∧
    FillCPMemoryArray s memory (0x80 + i) = (s.g_VtxAttr i).g1 ∧
    FillCPMemoryArray s memory (0x90 + i) = (s.g_VtxAttr i).g2 := by
  interval_cases i <;> simp [FillCPMemoryArray, List.range_succ, Function.update]

theorem FillCPMemoryArray_array (s : State) (memory : Nat → Nat) (i : Nat) (hi : i < 16) :
    FillCPMemoryArray s memory (0xA0 + i) = s.arraybases i ∧
    FillCPMemoryArray s memory (0xB0 + i) = s.arraystrides i := by
  interval_cases i <;> simp [FillCPMemoryArray, List.range_succ, Function.update]

theorem update_apply_eq {α : Type} (f : Nat → α) (a : Nat) (x : α) (i : Nat) :
    Function.update f a x i = if i = a then x else f i := by
  by_cases h : i = a
  · subst h; simp
  · simp [h]

/-- One completed write changes exactly the dump slot it is decoded to. -/
theorem FillCPMemoryArray_step {debug : Bool} {GetPointer : Nat → Nat} {s s1 : State}
    {c v : Nat} (h : LoadCPReg debug GetPointer s c v = some s1) (memory : Nat → Nat)
    (o : Nat) (ho : IsRegisterSlot o) :
    FillCPMemoryArray s1 memory o =
      if decodedSlot c = o then (if 0xB0 ≤ o then v &&& 0xFF else v)
      else FillCPMemoryArray s memory o := by
  obtain ⟨hb, -, hst, hat⟩ := LoadCPReg_effect h
  unfold decodedSlot
  simp only [and_F0_eq, and_7_eq, and_F_eq] at hb hst hat ⊢
  have hr : 16 * (c / 16 % 16) = 0x00 ∨ 16 * (c / 16 % 16) = 0x10 ∨
      16 * (c / 16 % 16) = 0x20 ∨ 16 * (c / 16 % 16) = 0x30 ∨ 16 * (c / 16 % 16) = 0x40 ∨
      16 * (c / 16 % 16) = 0x50 ∨ 16 * (c / 16 % 16) = 0x60 ∨ 16 * (c / 16 % 16) = 0x70 ∨
      16 * (c / 16 % 16) = 0x80 ∨ 16 * (c / 16 % 16) = 0x90 ∨ 16 * (c / 16 % 16) = 0xA0 ∨
      16 * (c / 16 % 16) = 0xB0 ∨ 16 * (c / 16 % 16) = 0xC0 ∨ 16 * (c / 16 % 16) = 0xD0 ∨
      16 * (c / 16 % 16) = 0xE0 ∨ 16 * (c / 16 % 16) = 0xF0 := by omega
  have hg : c % 8 < 8 := Nat.mod_lt _ (by decide)
  have ha : c % 16 < 16 := Nat.mod_lt _ (by decide)
  generalize 16 * (c / 16 % 16) = r at hb hst hat hr ⊢
  generalize c % 8 = g at hat hg ⊢
  generalize c % 16 = a at hb hst ha ⊢
  rcases ho with ho | ho | ho | ho | ho
  · obtain ⟨i, rfl⟩ : ∃ i, o = 0x70 + i := ⟨o - 0x70, by omega⟩
    have hi : i < 8 := by omega
    rw [(FillCPMemoryArray_attr s1 memory i hi).1, (FillCPMemoryArray_attr s memory i hi).1, hat]
    rcases hr with h | h | h | h | h | h | h | h | h | h | h | h | h | h | h | h <;> subst h <;>
      simp [update_apply_eq, VAT.setField] <;> split_ifs <;>
      first | rfl | omega | (subst_vars; rfl)
  · obtain ⟨i, rfl⟩ : ∃ i, o = 0x80 + i := ⟨o - 0x80, by omega⟩
    have hi : i < 8 := by omega
    rw [(FillCPMemoryArray_attr s1 memory i hi).2.1,
      (FillCPMemoryArray_attr s memory i hi).2.1, hat]
    rcases hr with h | h | h | h | h | h | h | h | h | h | h | h | h | h | h | h <;> subst h <;>
      simp [update_apply_eq, VAT.setField] <;> split_ifs <;>
      first | rfl | omega | (subst_vars; rfl)
  · obtain ⟨i, rfl⟩ : ∃ i, o = 0x90 + i := ⟨o - 0x90, by omega⟩
    have hi : i < 8 := by omega
    rw [(FillCPMemoryArray_attr s1 memory i hi).2.2,
      (FillCPMemoryArray_attr s memory i hi).2.2, hat]
    rcases hr with h | h | h | h | h | h | h | h | h | h | h | h | h | h | h | h <;> subst h <;>
      simp [update_apply_eq, VAT.setField] <;> split_ifs <;>
      first | rfl | omega | (subst_vars; rfl)
  · obtain ⟨i, rfl⟩ : ∃ i, o = 0xA0 + i := ⟨o - 0xA0, by omega⟩
    have hi : i < 16 := by omega
    rw [(FillCPMemoryArray_array s1 memory i hi).1, (FillCPMemoryArray_array s memory i hi).1,
      hb]
    rcases hr with h | h | h | h | h | h | h | h | h | h | h | h | h | h | h | h <;> subst h <;>
      simp [update_apply_eq] <;> split_ifs <;>
      first | rfl | omega
  · obtain ⟨i, rfl⟩ : ∃ i, o = 0xB0 + i := ⟨o - 0xB0, by omega⟩
    have hi : i < 16 := by omega
    rw [(FillCPMemoryArray_array s1 memory i hi).2, (FillCPMemoryArray_array s memory i hi).2,
      hst]
    rcases hr with h | h | h | h | h | h | h | h | h | h | h | h | h | h | h | h <;> subst h <;>
      simp [update_apply_eq] <;> split_ifs <;>
      first | rfl | omega

theorem assert_passes (debug cond : Bool) (h : debug = true → cond = true) :
    _assert_ debug cond = some () := by
  cases debug <;> cases cond <;> simp [_assert_] at h ⊢

theorem LoadCPReg_total (debug : Bool) (GetPointer : Nat → Nat) (s : State) (c v : Nat)
    (hok : debug = true → assertHolds c = true) :
    ∃ s1, LoadCPReg debug GetPointer s c v = some s1 := by
  unfold LoadCPReg
  unfold assertHolds at hok
  by_cases h3 : c &&& 0xF0 = 0x30
  · rw [if_pos h3]; exact ⟨_, rfl⟩
  rw [if_neg h3]
  by_cases h4 : c &&& 0xF0 = 0x40
  · rw [if_pos h4]; exact ⟨_, rfl⟩
  rw [if_neg h4]
  by_cases h5 : c &&& 0xF0 = 0x50
  · rw [if_pos h5]; exact ⟨_, rfl⟩
  rw [if_neg h5]
  by_cases h6 : c &&& 0xF0 = 0x60
  · rw [if_pos h6]; exact ⟨_, rfl⟩
  rw [if_neg h6]
  by_cases h7 : c &&& 0xF0 = 0x70
  · rw [if_pos h7, assert_passes debug _ (fun hd => by simpa [h7] using hok hd)]
    exact ⟨_, rfl⟩
  rw [if_neg h7]
  by_cases h8 : c &&& 0xF0 = 0x80
  · rw [if_pos h8, assert_passes debug _ (fun hd => by simpa [h8] using hok hd)]
    exact ⟨_, rfl⟩
  rw [if_neg h8]
  by_cases h9 : c &&& 0xF0 = 0x90
  · rw [if_pos h9, assert_passes debug _ (fun hd => by simpa [h9] using hok hd)]
    exact ⟨_, rfl⟩
  rw [if_neg h9]
  by_cases hA : c &&& 0xF0 = 0xA0
  · rw [if_pos hA]; exact ⟨_, rfl⟩
  rw [if_neg hA]
  by_cases hB : c &&& 0xF0 = 0xB0
  · rw [if_pos hB]; exact ⟨_, rfl⟩
  rw [if_neg hB]
  exact ⟨_, rfl⟩

theorem decodedSlot_of_byte (c : Nat) (hc : c ≤ 0xFF) (hok : assertHolds c = true) :
    decodedSlot c = c := by
  unfold assertHolds at hok
  unfold decodedSlot
  simp only [and_F0_eq, and_7_eq, and_F_eq] at hok ⊢
  split_ifs at hok ⊢ with h
  · have : c % 16 < 8 := by simpa using hok
    omega
  · omega

theorem lastWriteTo_cons (o c v : Nat) (rest : List (Nat × Nat)) :
    lastWriteTo o ((c, v) :: rest) =
      match lastWriteTo o rest with
      | some x => some x
      | none => if decodedSlot c = o then some v else none := rfl

/-- Claim C4, refuted as stated: a write addressed to `0x78` (release build) or to `0x170`
changes what the dump shows in `memory[0x70]`, although no write was addressed to `0x70`. -/
theorem C4_counterexample :
    (LoadCPRegs false id State.zero [(0x78, 2)]).map
      (fun s1 => FillCPMemoryArray s1 (fun _ => 0) 0x70) = some 2 ∧
    (LoadCPRegs true id State.zero [(0x170, 5)]).map
      (fun s1 => FillCPMemoryArray s1 (fun _ => 0) 0x70) = some 5 ∧
    FillCPMemoryArray State.zero (fun _ => 0) 0x70 = 0 ∧
    (0x78 ≠ 0x70) ∧ (0x170 ≠ 0x70) ∧ (0x170 < 2 ^ 32) := by
  decide

/-- Claim C4, amended. A sequence of `LoadCPReg` writes in which no assertion stops a debug
build runs to completion, and for every slot `o` in `0x70..0x77`, `0x80..0x87`, `0x90..0x97`,
`0xA0..0xAF`, `0xB0..0xBF` the dump afterwards holds in `memory[o]` the value of the last write
that `LoadCPReg` decodes to `o` (masked with `0xFF` for a stride slot), or what the dump held
before the sequence if no write decodes to `o`. A command byte `c ≤ 0xFF` that passes the
assertion decodes to the slot `c` itself. -/
theorem C4_dump_after_writes (debug : Bool) (GetPointer : Nat → Nat) (ws : List (Nat × Nat))
    (s : State) (hok : debug = true → ∀ w ∈ ws, assertHolds w.1 = true) :
    (∃ s1, LoadCPRegs debug GetPointer s ws = some s1 ∧
      ∀ (memory : Nat → Nat) (o : Nat), IsRegisterSlot o →
        FillCPMemoryArray s1 memory o =
          match lastWriteTo o ws with
          | some v => if 0xB0 ≤ o then v &&& 0xFF else v
          | none => FillCPMemoryArray s memory o) ∧
    (∀ c, c ≤ 0xFF → assertHolds c = true → decodedSlot c = c) := by
  refine ⟨?_, decodedSlot_of_byte⟩
  induction ws generalizing s with
  | nil => exact ⟨s, rfl, fun memory o _ => rfl⟩
  | cons w rest ih =>
    obtain ⟨c, v⟩ := w
    obtain ⟨s2, hstep⟩ := LoadCPReg_total debug GetPointer s c v
      (fun hd => hok hd (c, v) (List.mem_cons_self _ _))
    obtain ⟨s1, hrun, hdump⟩ := ih s2 (fun hd w hw => hok hd w (List.mem_cons_of_mem _ hw))
    refine ⟨s1, ?_, ?_⟩
    · rw [LoadCPRegs, hstep]
      exact hrun
    · intro memory o ho
      rw [hdump memory o ho, FillCPMemoryArray_step hstep memory o ho, lastWriteTo_cons]
      cases hl : lastWriteTo o rest with
      | some x => rfl
      | none =>
        by_cases hdec : decodedSlot c = o
        · simp [hdec]
        · simp [hdec]

/-- Instance of C4 (amended): a debug-build sequence that writes group 0 twice, a base and a
stride. -/
theorem C4_dump_after_writes_witness :
    (∃ s1, LoadCPRegs true id State.zero
        [(0x70, 1), (0xB2, 0x1FF), (0x170, 5), (0xA1, 7)] = some s1 ∧
      ∀ (memory : Nat → Nat) (o : Nat), IsRegisterSlot o →
        FillCPMemoryArray s1 memory o =
          match lastWriteTo o [(0x70, 1), (0xB2, 0x1FF), (0x170, 5), (0xA1, 7)] with
          | some v => if 0xB0 ≤ o then v &&& 0xFF else v
          | none => FillCPMemoryArray State.zero memory o) ∧
    (∀ c, c ≤ 0xFF → assertHolds c = true → decodedSlot c = c) :=
  C4_dump_after_writes true id [(0x70, 1), (0xB2, 0x1FF), (0x170, 5), (0xA1, 7)] State.zero
    (fun _ => by decide)


/-! ## Out-of-range group index -/

/-- Claim C11, refuted as stated: in a release build, where the assertion is compiled out,
`LoadCPReg(0x78, 2)` (low nibble 8) stores `2` in `g_VtxAttr[0].g0` and sets dirty bit 0. -/
theorem C11_counterexample :
    (0x78 &&& 0x0F = 8) ∧
    (LoadCPReg false id State.zero 0x78 2).map (fun s1 => (s1.g_VtxAttr 0).g0) = some 2 ∧
    (State.zero.g_VtxAttr 0).g0 = 0 ∧
    (LoadCPReg false id State.zero 0x78 2).map State.s_attr_dirty = some 1 ∧
    State.zero.s_attr_dirty = 0 := by
  decide

/-- Claim C11, amended. For an attribute-group command whose low nibble is 8..15, a debug build
stops at the failed assertion: `LoadCPReg` completes with no state, so no group is written and
no dirty bit is set. A release build, where the assertion is compiled out, executes the command
on group `sub_cmd & 7` (the low nibble minus 8): it stores the value in the sub-field of the row
and sets the dirty bit of that group. -/
theorem C11_out_of_range_group (GetPointer : Nat → Nat) (s : State) (c v : Nat)
    (hrow : c &&& 0xF0 = 0x70 ∨ c &&& 0xF0 = 0x80 ∨ c &&& 0xF0 = 0x90)
    (hn : 8 ≤ c &&& 0x0F) :
    LoadCPReg true GetPointer s c v = none ∧
    LoadCPReg false GetPointer s c v =
      some { s with
        g_VtxAttr := Function.update s.g_VtxAttr (c &&& 7)
          ((s.g_VtxAttr (c &&& 7)).setField ((c &&& 0xF0) / 0x10 - 7) v)
        s_attr_dirty := s.s_attr_dirty ||| (1 <<< (c &&& 7)) } ∧
    c &&& 7 = (c &&& 0x0F) - 8 := by
  have hlt : ¬ c &&& 0x0F < 8 := by omega
  refine ⟨?_, ?_, ?_⟩
  · rcases hrow with h | h | h <;> simp [LoadCPReg, h, _assert_, hlt]
  · rcases hrow with h | h | h <;> simp [LoadCPReg, h, _assert_, VAT.setField]
  · have e1 : c &&& 0x0F = c % 16 := Nat.and_pow_two_sub_one_eq_mod c 4
    rw [e1] at hn ⊢
    rw [and_7_eq]
    omega

/-- Instance of C11 (amended): command `0x8B`, row `0x80` with low nibble 11. -/
theorem C11_out_of_range_group_witness :
    LoadCPReg true id State.zero 0x8B 5 = none ∧
    LoadCPReg false id State.zero 0x8B 5 =
      some { State.zero with
        g_VtxAttr := Function.update State.zero.g_VtxAttr (0x8B &&& 7)
          ((State.zero.g_VtxAttr (0x8B &&& 7)).setField ((0x8B &&& 0xF0) / 0x10 - 7) 5)
        s_attr_dirty := State.zero.s_attr_dirty ||| (1 <<< (0x8B &&& 7)) } ∧
    0x8B &&& 7 = (0x8B &&& 0x0F) - 8 :=
  C11_out_of_range_group id State.zero 0x8B 5 (Or.inr (Or.inl (by decide))) (by decide)


/-! ## The loader cache -/

theorem mapFind_mapAssign_same (m : List (VertexLoaderUID × Nat)) (k : VertexLoaderUID)
    (p : Nat) : mapFind (mapAssign m k p) k = some p := by
  induction m with
  | nil => simp [mapAssign, mapFind]
  | cons e rest ih =>
    obtain ⟨k2, p2⟩ := e
    by_cases h : k2 = k
    · simp [mapAssign, mapFind, h]
    · simp [mapAssign, mapFind, h, ih]

theorem mapFind_mapAssign_ne (m : List (VertexLoaderUID × Nat)) (k k1 : VertexLoaderUID)
    (p : Nat) (hne : k1 ≠ k) : mapFind (mapAssign m k p) k1 = mapFind m k1 := by
  induction m with
  | nil =>
    have : ¬ k = k1 := fun h => hne h.symm
    simp [mapAssign, mapFind, this]
  | cons e rest ih =>
    obtain ⟨k2, p2⟩ := e
    by_cases h : k2 = k
    · subst h
      have : ¬ k2 = k1 := fun h => hne h.symm
      simp [mapAssign, mapFind, this]
    · by_cases h1 : k2 = k1
      · subst h1
        simp [mapAssign, mapFind, h]
      · simp [mapAssign, mapFind, h, h1, ih]

theorem mapAssign_of_absent (m : List (VertexLoaderUID × Nat)) (k : VertexLoaderUID) (p : Nat)
    (h : mapFind m k = none) : mapAssign m k p = m ++ [(k, p)] := by
  induction m with
  | nil => rfl
  | cons e rest ih =>
    obtain ⟨k2, p2⟩ := e
    by_cases h2 : k2 = k
    · simp [mapFind, h2] at h
    · simp only [mapFind, h2, if_false] at h
      simp [mapAssign, h2, ih h]

theorem mapFind_append_of_some (m l : List (VertexLoaderUID × Nat)) (k : VertexLoaderUID)
    (p : Nat) (h : mapFind m k = some p) : mapFind (m ++ l) k = some p := by
  induction m with
  | nil => simp [mapFind] at h
  | cons e rest ih =>
    obtain ⟨k2, p2⟩ := e
    by_cases h2 : k2 = k
    · simpa [mapFind, h2] using h
    · simp only [mapFind, h2, if_false] at h
      simp [mapFind, h2, ih h]

theorem mapFind_append_of_none (m l : List (VertexLoaderUID × Nat)) (k : VertexLoaderUID)
    (h : mapFind m k = none) : mapFind (m ++ l) k = mapFind l k := by
  induction m with
  | nil => rfl
  | cons e rest ih =>
    obtain ⟨k2, p2⟩ := e
    by_cases h2 : k2 = k
    · simp [mapFind, h2] at h
    · simp only [mapFind, h2, if_false] at h
      simp [mapFind, h2, ih h]

theorem mapFind_none_of_append (m l : List (VertexLoaderUID × Nat)) (k : VertexLoaderUID)
    (h : mapFind (m ++ l) k = none) : mapFind m k = none := by
  cases hm : mapFind m k with
  | none => rfl
  | some p => rw [mapFind_append_of_some m l k p hm] at h; cases h

theorem mapFind_some_of_mem_keys (l : List (VertexLoaderUID × Nat)) (k : VertexLoaderUID)
    (h : k ∈ l.map Prod.fst) : ∃ p, mapFind l k = some p := by
  induction l with
  | nil => simp at h
  | cons e rest ih =>
    obtain ⟨k2, p2⟩ := e
    by_cases h2 : k2 = k
    · exact ⟨p2, by simp [mapFind, h2]⟩
    · have : k ∈ rest.map Prod.fst := by
        simp only [List.map_cons, List.mem_cons] at h
        rcases h with h | h
        · exact absurd h.symm h2
        · exact h
      obtain ⟨p, hp⟩ := ih this
      exact ⟨p, by simp [mapFind, h2, hp]⟩

/-! ## The dirty mask -/

theorem dirty_test_iff (d g : Nat) : ((d >>> g) &&& 1 ≠ 0) ↔ d.testBit g = true := by
  unfold Nat.testBit
  rw [Nat.and_comm]
  simp

theorem testBit_clear_bit (d g j : Nat) (hg : g < 32) :
    (d &&& (0xFFFFFFFF ^^^ (1 <<< g))).testBit j =
      (d.testBit j && decide (j < 32) && !decide (g = j)) := by
  have h : (0xFFFFFFFF : Nat) = 2 ^ 32 - 1 := by decide
  rw [Nat.testBit_and, Nat.testBit_xor, h, Nat.testBit_two_pow_sub_one, Nat.one_shiftLeft,
    Nat.testBit_two_pow]
  by_cases h1 : j < 32 <;> by_cases h2 : g = j <;> simp [h1, h2]
  omega

/-! ## Slot refresh -/

theorem RefreshLoader_clean (env : LoaderEnv) (s : State) (g : Nat) (hg : g < 8)
    (hc : s.s_attr_dirty.testBit g = false) :
    RefreshLoader env s g = some (s.s_VertexLoaders g, s) := by
  have : ¬ ((s.s_attr_dirty >>> g) &&& 1 ≠ 0) := by
    rw [dirty_test_iff, hc]; simp
  unfold RefreshLoader
  rw [if_pos hg, if_neg this]

theorem RefreshLoader_hit (env : LoaderEnv) (s : State) (g p : Nat) (hg : g < 8)
    (hd : s.s_attr_dirty.testBit g = true)
    (hf : mapFind s.s_vertex_loader_map (currentUID s g) = some p) :
    RefreshLoader env s g =
      some (some p,
        { s with
          s_VertexLoaders := Function.update s.s_VertexLoaders g (some p)
          s_attr_dirty := s.s_attr_dirty &&& (0xFFFFFFFF ^^^ (1 <<< g)) }) := by
  have : (s.s_attr_dirty >>> g) &&& 1 ≠ 0 := (dirty_test_iff _ _).mpr hd
  unfold currentUID at hf
  unfold RefreshLoader
  rw [if_pos hg, if_pos this]
  simp only [hf]

theorem RefreshLoader_miss (env : LoaderEnv) (s : State) (g : Nat) (hg : g < 8)
    (hd : s.s_attr_dirty.testBit g = true)
    (hf : mapFind s.s_vertex_loader_map (currentUID s g) = none) :
    RefreshLoader env s g =
      some (some (env.new_VertexLoader s g),
        { s with
          s_vertex_loader_map :=
            mapAssign s.s_vertex_loader_map (currentUID s g) (env.new_VertexLoader s g)
          numVertexLoaders := s.numVertexLoaders + 1
          s_VertexLoaders :=
            Function.update s.s_VertexLoaders g (some (env.new_VertexLoader s g))
          s_attr_dirty := s.s_attr_dirty &&& (0xFFFFFFFF ^^^ (1 <<< g)) }) := by
  have : (s.s_attr_dirty >>> g) &&& 1 ≠ 0 := (dirty_test_iff _ _).mpr hd
  unfold currentUID at hf
  unfold RefreshLoader
  rw [if_pos hg, if_pos this]
  simp only [hf]
  rfl

theorem Init_loader_fields (GetPointer : Nat → Nat) (s : State) :
    (Init GetPointer s).s_attr_dirty = 0xff ∧
    (Init GetPointer s).s_vertex_loader_map = s.s_vertex_loader_map ∧
    (Init GetPointer s).numVertexLoaders = s.numVertexLoaders ∧
    (Init GetPointer s).g_VtxDesc = s.g_VtxDesc ∧
    (Init GetPointer s).g_VtxAttr = s.g_VtxAttr := by
  simp [Init, MarkAllDirty, RecomputeCachedArraybases, List.range_succ]

theorem Init_slots_null (GetPointer : Nat → Nat) (s : State) (g : Nat) (hg : g < 8) :
    (Init GetPointer s).s_VertexLoaders g = none := by
  interval_cases g <;>
    simp [Init, MarkAllDirty, RecomputeCachedArraybases, List.range_succ, Function.update]

/-- Claim C12. For a group `g < 8` whose dirty bit is set, `RefreshLoader(g)` returns the
loader the cache stores under the key of `(g_VtxDesc, g_VtxAttr[g])` if there is one (cache and
counter unchanged), and otherwise the newly constructed loader, which it inserts under that key
as one new entry. In both cases it stores the returned loader in slot `g`, clears dirty bit `g`
and no other bit, leaves the other slots and the register file unchanged, and afterwards the
cache maps that key to the returned loader. -/
theorem C12_dirty_refresh (env : LoaderEnv) (s : State) (g : Nat) (hg : g < 8)
    (hd : s.s_attr_dirty.testBit g = true) :
    ∃ p s1, RefreshLoader env s g = some (some p, s1) ∧
      (∀ q, mapFind s.s_vertex_loader_map (currentUID s g) = some q →
        p = q ∧ s1.s_vertex_loader_map = s.s_vertex_loader_map ∧
          s1.numVertexLoaders = s.numVertexLoaders) ∧
      (mapFind s.s_vertex_loader_map (currentUID s g) = none →
        p = env.new_VertexLoader s g ∧
          s1.s_vertex_loader_map = s.s_vertex_loader_map ++ [(currentUID s g, p)] ∧
          s1.numVertexLoaders = s.numVertexLoaders + 1) ∧
      s1.s_VertexLoaders g = some p ∧
      s1.s_attr_dirty.testBit g = false ∧
      (∀ j, j ≠ g → j < 32 → s1.s_attr_dirty.testBit j = s.s_attr_dirty.testBit j) ∧
      (∀ j, j ≠ g → s1.s_VertexLoaders j = s.s_VertexLoaders j) ∧
      s1.g_VtxDesc = s.g_VtxDesc ∧ s1.g_VtxAttr = s.g_VtxAttr ∧
      s1.arraybases = s.arraybases ∧ s1.arraystrides = s.arraystrides ∧
      mapFind s1.s_vertex_loader_map (currentUID s g) = some p := by
  have hg32 : g < 32 := by omega
  have hbit : (s.s_attr_dirty &&& (0xFFFFFFFF ^^^ (1 <<< g))).testBit g = false := by
    rw [testBit_clear_bit _ _ _ hg32]; simp
  have hother : ∀ j, j ≠ g → j < 32 →
      (s.s_attr_dirty &&& (0xFFFFFFFF ^^^ (1 <<< g))).testBit j = s.s_attr_dirty.testBit j := by
    intro j hj hj32
    have : ¬ g = j := fun h => hj h.symm
    rw [testBit_clear_bit _ _ _ hg32]; simp [hj32, this]
  cases hf : mapFind s.s_vertex_loader_map (currentUID s g) with
  | some q =>
    refine ⟨q, _, RefreshLoader_hit env s g q hg hd hf, ?_, ?_, ?_, hbit, hother, ?_,
      rfl, rfl, rfl, rfl, hf⟩
    · intro q2 h2
      cases h2
      exact ⟨rfl, rfl, rfl⟩
    · intro h2; cases h2
    · show Function.update s.s_VertexLoaders g (some q) g = some q
      rw [Function.update_same]
    · intro j hj
      show Function.update s.s_VertexLoaders g (some q) j = _
      rw [Function.update_noteq hj]
  | none =>
    refine ⟨env.new_VertexLoader s g, _, RefreshLoader_miss env s g hg hd hf, ?_, ?_, ?_, hbit,
      hother, ?_, rfl, rfl, rfl, rfl, ?_⟩
    · intro q h2; cases h2
    · intro _
      exact ⟨rfl, mapAssign_of_absent _ _ _ hf, rfl⟩
    · show Function.update s.s_VertexLoaders g (some (env.new_VertexLoader s g)) g = _
      rw [Function.update_same]
    · intro j hj
      show Function.update s.s_VertexLoaders g (some (env.new_VertexLoader s g)) j = _
      rw [Function.update_noteq hj]
    · exact mapFind_mapAssign_same _ _ _

/-- Instance of C12: group 2 of the zero state with all groups marked dirty. -/
theorem C12_dirty_refresh_witness :
    ∃ p s1, RefreshLoader exampleEnv (MarkAllDirty State.zero) 2 = some (some p, s1) ∧
      (∀ q, mapFind (MarkAllDirty State.zero).s_vertex_loader_map
          (currentUID (MarkAllDirty State.zero) 2) = some q →
        p = q ∧ s1.s_vertex_loader_map = (MarkAllDirty State.zero).s_vertex_loader_map ∧
          s1.numVertexLoaders = (MarkAllDirty State.zero).numVertexLoaders) ∧
      (mapFind (MarkAllDirty State.zero).s_vertex_loader_map
          (currentUID (MarkAllDirty State.zero) 2) = none →
        p = exampleEnv.new_VertexLoader (MarkAllDirty State.zero) 2 ∧
          s1.s_vertex_loader_map = (MarkAllDirty State.zero).s_vertex_loader_map ++
            [(currentUID (MarkAllDirty State.zero) 2, p)] ∧
          s1.numVertexLoaders = (MarkAllDirty State.zero).numVertexLoaders + 1) ∧
      s1.s_VertexLoaders 2 = some p ∧
      s1.s_attr_dirty.testBit 2 = false ∧
      (∀ j, j ≠ 2 → j < 32 →
        s1.s_attr_dirty.testBit j = (MarkAllDirty State.zero).s_attr_dirty.testBit j) ∧
      (∀ j, j ≠ 2 → s1.s_VertexLoaders j = (MarkAllDirty State.zero).s_VertexLoaders j) ∧
      s1.g_VtxDesc = (MarkAllDirty State.zero).g_VtxDesc ∧
      s1.g_VtxAttr = (MarkAllDirty State.zero).g_VtxAttr ∧
      s1.arraybases = (MarkAllDirty State.zero).arraybases ∧
      s1.arraystrides = (MarkAllDirty State.zero).arraystrides ∧
      mapFind s1.s_vertex_loader_map (currentUID (MarkAllDirty State.zero) 2) = some p :=
  C12_dirty_refresh exampleEnv (MarkAllDirty State.zero) 2 (by decide) (by decide)

/-- Claim C13. For a group `g < 8` whose dirty bit is clear, `RefreshLoader(g)` returns exactly
the loader stored in slot `g` and returns the state it was given: dirty mask, slots, loader
cache, loader counter and register file are unchanged. -/
theorem C13_clean_refresh (env : LoaderEnv) (s : State) (g : Nat) (hg : g < 8)
    (hc : s.s_attr_dirty.testBit g = false) :
    RefreshLoader env s g = some (s.s_VertexLoaders g, s) :=
  RefreshLoader_clean env s g hg hc

/-- Instance of C13: group 5 of the zero state, whose dirty mask is zero. -/
theorem C13_clean_refresh_witness :
    RefreshLoader exampleEnv State.zero 5 = some (State.zero.s_VertexLoaders 5, State.zero) :=
  C13_clean_refresh exampleEnv State.zero 5 (by decide) (by decide)

theorem testBit_clear_self (d g : Nat) (hg : g < 8) :
    (d &&& (0xFFFFFFFF ^^^ (1 <<< g))).testBit g = false := by
  rw [testBit_clear_bit _ _ _ (by omega)]; simp

/-- After any refresh of a group `g < 8`, a second refresh returns the same loader and state. -/
theorem RefreshLoader_twice (env : LoaderEnv) (s : State) (g : Nat) (hg : g < 8) :
    ∃ l s1, RefreshLoader env s g = some (l, s1) ∧ RefreshLoader env s1 g = some (l, s1) ∧
      s1.s_attr_dirty.testBit g = false := by
  cases hd : s.s_attr_dirty.testBit g with
  | false =>
    exact ⟨_, _, RefreshLoader_clean env s g hg hd, RefreshLoader_clean env s g hg hd, hd⟩
  | true =>
    cases hf : mapFind s.s_vertex_loader_map (currentUID s g) with
    | some q =>
      refine ⟨_, _, RefreshLoader_hit env s g q hg hd hf, ?_, testBit_clear_self _ _ hg⟩
      rw [RefreshLoader_clean env _ g hg (testBit_clear_self _ _ hg)]
      simp
    | none =>
      refine ⟨_, _, RefreshLoader_miss env s g hg hd hf, ?_, testBit_clear_self _ _ hg⟩
      rw [RefreshLoader_clean env _ g hg (testBit_clear_self _ _ hg)]
      simp

/-- Claim C14. `RefreshLoader` is idempotent: for every state and every group `g < 8`, two
calls of `RefreshLoader(g)` in a row return the same loader, and the second call returns the
state produced by the first (nothing is constructed, nothing changes). Scenario: from `Init`
with an empty cache, after `LoadCPReg(0x50, 0x1)` and `LoadCPReg(0x70, 0x2)`, the first
`RefreshLoader(0)` misses, constructs one loader, leaves exactly that one entry in the cache and
clears dirty bit 0; the second returns the same loader and the same state. -/
theorem C14_refresh_idempotent (env : LoaderEnv) (s : State) (g : Nat) (hg : g < 8) :
    (∃ l s1, RefreshLoader env s g = some (l, s1) ∧ RefreshLoader env s1 g = some (l, s1)) ∧
    (∀ (debug : Bool) (GetPointer : Nat → Nat) (s0 : State), s0.s_vertex_loader_map = [] →
      ∃ t p t1, LoadCPRegs debug GetPointer (Init GetPointer s0) [(0x50, 0x1), (0x70, 0x2)] =
          some t ∧
        mapFind t.s_vertex_loader_map (currentUID t 0) = none ∧
        RefreshLoader env t 0 = some (some p, t1) ∧
        p = env.new_VertexLoader t 0 ∧
        t1.s_vertex_loader_map = [(currentUID t 0, p)] ∧
        t1.numVertexLoaders = t.numVertexLoaders + 1 ∧
        t.s_attr_dirty.testBit 0 = true ∧
        t1.s_attr_dirty.testBit 0 = false ∧
        RefreshLoader env t1 0 = some (some p, t1)) := by
  constructor
  · obtain ⟨l, s1, h1, h2, -⟩ := RefreshLoader_twice env s g hg
    exact ⟨l, s1, h1, h2⟩
  · intro debug GetPointer s0 hs0
    obtain ⟨-, hmap, -, -, -⟩ := Init_loader_fields GetPointer s0
    have h8 : (0 : Nat) < 8 := by decide
    have key : ∀ t : State, t.s_vertex_loader_map = [] → t.s_attr_dirty.testBit 0 = true →
        ∃ p t1, mapFind t.s_vertex_loader_map (currentUID t 0) = none ∧
          RefreshLoader env t 0 = some (some p, t1) ∧
          p = env.new_VertexLoader t 0 ∧
          t1.s_vertex_loader_map = [(currentUID t 0, p)] ∧
          t1.numVertexLoaders = t.numVertexLoaders + 1 ∧
          t.s_attr_dirty.testBit 0 = true ∧
          t1.s_attr_dirty.testBit 0 = false ∧
          RefreshLoader env t1 0 = some (some p, t1) := by
      intro t hm hb
      have hfind : mapFind t.s_vertex_loader_map (currentUID t 0) = none := by
        rw [hm]; rfl
      refine ⟨_, _, hfind, RefreshLoader_miss env t 0 h8 hb hfind, rfl, ?_, rfl, hb,
        testBit_clear_self _ _ h8, ?_⟩
      · show mapAssign t.s_vertex_loader_map _ _ = _
        rw [hm]; rfl
      · rw [RefreshLoader_clean env _ 0 h8 (testBit_clear_self _ _ h8)]
        simp
    have hrun : LoadCPRegs debug GetPointer (Init GetPointer s0) [(0x50, 0x1), (0x70, 0x2)] =
        some { Init GetPointer s0 with
          g_VtxDesc := ((Init GetPointer s0).g_VtxDesc &&& 0xFFFFFFFFFFFE0000) ||| 0x1
          g_VtxAttr := Function.update (Init GetPointer s0).g_VtxAttr 0
            (((Init GetPointer s0).g_VtxAttr 0).setField 0 0x2)
          s_attr_dirty := 0xFF ||| (1 <<< 0) } := by
      rw [LoadCPRegs, LoadCPReg_0x50]
      simp only [Option.some_bind]
      rw [LoadCPRegs, LoadCPReg_attr debug GetPointer _ 0 0 0x2 (by decide) (by decide)]
      rfl
    obtain ⟨t, ht, htm, htb⟩ : ∃ t,
        LoadCPRegs debug GetPointer (Init GetPointer s0) [(0x50, 0x1), (0x70, 0x2)] = some t ∧
        t.s_vertex_loader_map = [] ∧ t.s_attr_dirty.testBit 0 = true :=
      ⟨_, hrun, (show (Init GetPointer s0).s_vertex_loader_map = [] by rw [hmap, hs0]),
        (show (0xFF ||| (1 <<< 0) : Nat).testBit 0 = true by decide)⟩
    obtain ⟨p, t1, hk⟩ := key t htm htb
    exact ⟨t, p, t1, ht, hk⟩

/-- Instance of C14: group 3 of the zero state with all groups marked dirty, and the scenario
in a debug build from `Init` applied to the zero state. -/
theorem C14_refresh_idempotent_witness :
    (∃ l s1, RefreshLoader exampleEnv (MarkAllDirty State.zero) 3 = some (l, s1) ∧
      RefreshLoader exampleEnv s1 3 = some (l, s1)) ∧
    (∃ t p t1, LoadCPRegs true id (Init id State.zero) [(0x50, 0x1), (0x70, 0x2)] = some t ∧
        mapFind t.s_vertex_loader_map (currentUID t 0) = none ∧
        RefreshLoader exampleEnv t 0 = some (some p, t1) ∧
        p = exampleEnv.new_VertexLoader t 0 ∧
        t1.s_vertex_loader_map = [(currentUID t 0, p)] ∧
        t1.numVertexLoaders = t.numVertexLoaders + 1 ∧
        t.s_attr_dirty.testBit 0 = true ∧
        t1.s_attr_dirty.testBit 0 = false ∧
        RefreshLoader exampleEnv t1 0 = some (some p, t1)) :=
  ⟨(C14_refresh_idempotent exampleEnv (MarkAllDirty State.zero) 3 (by decide)).1,
    (C14_refresh_idempotent exampleEnv (MarkAllDirty State.zero) 3 (by decide)).2
      true id State.zero rfl⟩

/-! ## Frame lemmas for the slot invariant -/

theorem testBit_0xFF (g : Nat) (hg : g < 8) : (0xFF : Nat).testBit g = true := by
  interval_cases g <;> decide

theorem assert_bind_some {debug cond : Bool} {f : Unit → Option State} {s1 : State}
    (h : (_assert_ debug cond).bind f = some s1) : f () = some s1 := by
  cases ha : _assert_ debug cond with
  | none => rw [ha] at h; cases h
  | some u => rw [ha] at h; exact h

/-- The shapes of the state after a completed `LoadCPReg` call, one per row of the switch. -/
theorem LoadCPReg_cases {debug : Bool} {GetPointer : Nat → Nat} {s s1 : State} {c v : Nat}
    (h : LoadCPReg debug GetPointer s c v = some s1) :
    s1 = { s with calls := s.calls ++ [Call.SetTexMatrixChangedA v] } ∨
    s1 = { s with calls := s.calls ++ [Call.SetTexMatrixChangedB v] } ∨
    s1 = { s with
      g_VtxDesc := (s.g_VtxDesc &&& 0xFFFFFFFFFFFE0000) ||| v
      s_attr_dirty := 0xFF } ∨
    s1 = { s with
      g_VtxDesc := (s.g_VtxDesc &&& 0x1FFFF) ||| ((v <<< 17) % 2 ^ 64)
      s_attr_dirty := 0xFF } ∨
    (∃ k, k < 3 ∧ s1 = { s with
      g_VtxAttr := Function.update s.g_VtxAttr (c &&& 7) ((s.g_VtxAttr (c &&& 7)).setField k v)
      s_attr_dirty := s.s_attr_dirty ||| (1 <<< (c &&& 7)) }) ∨
    s1 = { s with
      arraybases := Function.update s.arraybases (c &&& 0xF) v
      cached_arraybases := Function.update s.cached_arraybases (c &&& 0xF) (GetPointer v) } ∨
    s1 = { s with
      arraystrides := Function.update s.arraystrides (c &&& 0xF) (v &&& 0xFF) } ∨
    s1 = s := by
  unfold LoadCPReg at h
  by_cases h3 : c &&& 0xF0 = 0x30
  · rw [if_pos h3] at h
    exact Or.inl (Option.some.inj h).symm
  rw [if_neg h3] at h
  by_cases h4 : c &&& 0xF0 = 0x40
  · rw [if_pos h4] at h
    exact Or.inr (Or.inl (Option.some.inj h).symm)
  rw [if_neg h4] at h
  by_cases h5 : c &&& 0xF0 = 0x50
  · rw [if_pos h5] at h
    exact Or.inr (Or.inr (Or.inl (Option.some.inj h).symm))
  rw [if_neg h5] at h
  by_cases h6 : c &&& 0xF0 = 0x60
  · rw [if_pos h6] at h
    exact Or.inr (Or.inr (Or.inr (Or.inl (Option.some.inj h).symm)))
  rw [if_neg h6] at h
  by_cases h7 : c &&& 0xF0 = 0x70
  · rw [if_pos h7] at h
    exact Or.inr (Or.inr (Or.inr (Or.inr (Or.inl
      ⟨0, by decide, (Option.some.inj (assert_bind_some h)).symm⟩))))
  rw [if_neg h7] at h
  by_cases h8 : c &&& 0xF0 = 0x80
  · rw [if_pos h8] at h
    exact Or.inr (Or.inr (Or.inr (Or.inr (Or.inl
      ⟨1, by decide, (Option.some.inj (assert_bind_some h)).symm⟩))))
  rw [if_neg h8] at h
  by_cases h9 : c &&& 0xF0 = 0x90
  · rw [if_pos h9] at h
    exact Or.inr (Or.inr (Or.inr (Or.inr (Or.inl
      ⟨2, by decide, (Option.some.inj (assert_bind_some h)).symm⟩))))
  rw [if_neg h9] at h
  by_cases hA : c &&& 0xF0 = 0xA0
  · rw [if_pos hA] at h
    exact Or.inr (Or.inr (Or.inr (Or.inr (Or.inr (Or.inl (Option.some.inj h).symm)))))
  rw [if_neg hA] at h
  by_cases hB : c &&& 0xF0 = 0xB0
  · rw [if_pos hB] at h
    exact Or.inr (Or.inr (Or.inr (Or.inr (Or.inr (Or.inr (Or.inl
      (Option.some.inj h).symm))))))
  rw [if_neg hB] at h
  exact Or.inr (Or.inr (Or.inr (Or.inr (Or.inr (Or.inr (Or.inr
    (Option.some.inj h).symm))))))

/-- A completed `LoadCPReg` call touches neither the slots, the cache, the counter nor the
current vertex format. -/
theorem LoadCPReg_loader_frame {debug : Bool} {GetPointer : Nat → Nat} {s s1 : State}
    {c v : Nat} (h : LoadCPReg debug GetPointer s c v = some s1) :
    s1.s_VertexLoaders = s.s_VertexLoaders ∧
    s1.s_vertex_loader_map = s.s_vertex_loader_map ∧
    s1.numVertexLoaders = s.numVertexLoaders ∧
    s1.s_current_vtx_fmt = s.s_current_vtx_fmt := by
  rcases LoadCPReg_cases h with e | e | e | e | ⟨k, -, e⟩ | e | e | e <;> subst e <;>
    exact ⟨rfl, rfl, rfl, rfl⟩

/-- A group whose dirty bit is clear after a completed `LoadCPReg` call had it clear before,
and its key is unchanged. -/
theorem LoadCPReg_key_frame {debug : Bool} {GetPointer : Nat → Nat} {s s1 : State}
    {c v : Nat} (h : LoadCPReg debug GetPointer s c v = some s1) (g : Nat) (hg : g < 8)
    (hc : s1.s_attr_dirty.testBit g = false) :
    s.s_attr_dirty.testBit g = false ∧ currentUID s1 g = currentUID s g := by
  rcases LoadCPReg_cases h with e | e | e | e | ⟨k, -, e⟩ | e | e | e <;> subst e
  · exact ⟨hc, rfl⟩
  · exact ⟨hc, rfl⟩
  · have hb : (0xFF : Nat).testBit g = false := hc
    rw [testBit_0xFF g hg] at hb
    cases hb
  · have hb : (0xFF : Nat).testBit g = false := hc
    rw [testBit_0xFF g hg] at hb
    cases hb
  · have hb2 : (s.s_attr_dirty ||| (1 <<< (c &&& 7))).testBit g = false := hc
    rw [testBit_or_one_shiftLeft] at hb2
    simp only [Bool.or_eq_false_iff, decide_eq_false_iff_not] at hb2
    refine ⟨hb2.1, ?_⟩
    have hne : g ≠ c &&& 7 := fun e => hb2.2 e.symm
    show VertexLoaderUID.mk s.g_VtxDesc (Function.update s.g_VtxAttr (c &&& 7) _ g) = _
    rw [Function.update_noteq hne]
    rfl
  · exact ⟨hc, rfl⟩
  · exact ⟨hc, rfl⟩
  · exact ⟨hc, rfl⟩

theorem Init_slots_valid (GetPointer : Nat → Nat) (s : State) :
    SlotsValid (Init GetPointer s) := by
  intro g hg hc
  rw [(Init_loader_fields GetPointer s).1, testBit_0xFF g hg] at hc
  cases hc

theorem LoadCPReg_slots_valid {debug : Bool} {GetPointer : Nat → Nat} {s s1 : State}
    {c v : Nat} (hs : SlotsValid s) (h : LoadCPReg debug GetPointer s c v = some s1) :
    SlotsValid s1 := by
  intro g hg hc
  obtain ⟨hc0, hk⟩ := LoadCPReg_key_frame h g hg hc
  obtain ⟨hslots, hmap, -, -⟩ := LoadCPReg_loader_frame h
  obtain ⟨p, hp1, hp2⟩ := hs g hg hc0
  exact ⟨p, by rw [hmap, hk]; exact hp1, by rw [hslots]; exact hp2⟩

/-! ## Inversion of the slot refresh and of the dispatch -/

/-- The shapes of a completed `RefreshLoader` call: clean, cache hit, cache miss. -/
theorem RefreshLoader_cases {env : LoaderEnv} {s s1 : State} {g : Nat} {l : Option Nat}
    (h : RefreshLoader env s g = some (l, s1)) :
    g < 8 ∧
    ((s.s_attr_dirty.testBit g = false ∧ l = s.s_VertexLoaders g ∧ s1 = s) ∨
     (s.s_attr_dirty.testBit g = true ∧ ∃ p, l = some p ∧
       mapFind s.s_vertex_loader_map (currentUID s g) = some p ∧
       s1 = { s with
         s_VertexLoaders := Function.update s.s_VertexLoaders g (some p)
         s_attr_dirty := s.s_attr_dirty &&& (0xFFFFFFFF ^^^ (1 <<< g)) }) ∨
     (s.s_attr_dirty.testBit g = true ∧ l = some (env.new_VertexLoader s g) ∧
       mapFind s.s_vertex_loader_map (currentUID s g) = none ∧
       s1 = { s with
         s_vertex_loader_map :=
           mapAssign s.s_vertex_loader_map (currentUID s g) (env.new_VertexLoader s g)
         numVertexLoaders := s.numVertexLoaders + 1
         s_VertexLoaders :=
           Function.update s.s_VertexLoaders g (some (env.new_VertexLoader s g))
         s_attr_dirty := s.s_attr_dirty &&& (0xFFFFFFFF ^^^ (1 <<< g)) })) := by
  have hg : g < 8 := by
    by_contra hn
    unfold RefreshLoader at h
    rw [if_neg hn] at h
    cases h
  refine ⟨hg, ?_⟩
  cases hd : s.s_attr_dirty.testBit g with
  | false =>
    rw [RefreshLoader_clean env s g hg hd] at h
    cases h
    exact Or.inl ⟨rfl, rfl, rfl⟩
  | true =>
    cases hf : mapFind s.s_vertex_loader_map (currentUID s g) with
    | some q =>
      rw [RefreshLoader_hit env s g q hg hd hf] at h
      cases h
      exact Or.inr (Or.inl ⟨rfl, q, rfl, rfl, rfl⟩)
    | none =>
      rw [RefreshLoader_miss env s g hg hd hf] at h
      cases h
      exact Or.inr (Or.inr ⟨rfl, rfl, rfl, rfl⟩)

/-- A completed `RefreshLoader` call changes only the slots, the dirty mask, the cache and the
loader counter. -/
theorem RefreshLoader_frame {env : LoaderEnv} {s s1 : State} {g : Nat} {l : Option Nat}
    (h : RefreshLoader env s g = some (l, s1)) :
    s1.g_VtxDesc = s.g_VtxDesc ∧ s1.g_VtxAttr = s.g_VtxAttr ∧
    s1.arraybases = s.arraybases ∧ s1.arraystrides = s.arraystrides ∧
    s1.cached_arraybases = s.cached_arraybases ∧
    s1.s_current_vtx_fmt = s.s_current_vtx_fmt ∧ s1.calls = s.calls := by
  rcases (RefreshLoader_cases h).2 with ⟨-, -, e⟩ | ⟨-, p, -, -, e⟩ | ⟨-, -, -, e⟩ <;>
    subst e <;> exact ⟨rfl, rfl, rfl, rfl, rfl, rfl, rfl⟩

/-- A completed `RefreshLoader` call leaves the cache and the counter as they were, or adds
one entry under a key that was absent and counts it. -/
theorem RefreshLoader_cache {env : LoaderEnv} {s s1 : State} {g : Nat} {l : Option Nat}
    (h : RefreshLoader env s g = some (l, s1)) :
    (s1.s_vertex_loader_map = s.s_vertex_loader_map ∧
      s1.numVertexLoaders = s.numVertexLoaders) ∨
    (∃ k p, mapFind s.s_vertex_loader_map k = none ∧
      s1.s_vertex_loader_map = s.s_vertex_loader_map ++ [(k, p)] ∧
      s1.numVertexLoaders = s.numVertexLoaders + 1) := by
  rcases (RefreshLoader_cases h).2 with ⟨-, -, e⟩ | ⟨-, p, -, -, e⟩ | ⟨-, -, hf, e⟩ <;> subst e
  · exact Or.inl ⟨rfl, rfl⟩
  · exact Or.inl ⟨rfl, rfl⟩
  · exact Or.inr ⟨_, _, hf, mapAssign_of_absent _ _ _ hf, rfl⟩

/-- The slot invariant survives a refresh, and the refreshed loader is the non-null loader that
the cache stores under the key of the group. -/
theorem RefreshLoader_slots_valid {env : LoaderEnv} {s s1 : State} {g : Nat} {l : Option Nat}
    (hs : SlotsValid s) (h : RefreshLoader env s g = some (l, s1)) :
    SlotsValid s1 ∧ ∃ p, l = some p ∧
      mapFind s1.s_vertex_loader_map (currentUID s1 g) = some p := by
  obtain ⟨hg, hcases⟩ := RefreshLoader_cases h
  have hg32 : g < 32 := by omega
  rcases hcases with ⟨hd, hl, e⟩ | ⟨hd, p, hl, hf, e⟩ | ⟨hd, hl, hf, e⟩
  · subst e
    obtain ⟨p, hp1, hp2⟩ := hs g hg hd
    exact ⟨hs, p, by rw [hl, hp2], hp1⟩
  · subst e
    refine ⟨?_, p, hl, hf⟩
    intro j hj hc
    have hc2 : (s.s_attr_dirty &&& (0xFFFFFFFF ^^^ (1 <<< g))).testBit j = false := hc
    by_cases hjg : j = g
    · subst hjg
      refine ⟨p, hf, ?_⟩
      show Function.update s.s_VertexLoaders j (some p) j = some p
      rw [Function.update_same]
    · have hne : ¬ g = j := fun e => hjg e.symm
      rw [testBit_clear_bit _ _ _ hg32] at hc2
      have hj32 : j < 32 := by omega
      simp [hj32, hne] at hc2
      obtain ⟨q, hq1, hq2⟩ := hs j hj hc2
      refine ⟨q, hq1, ?_⟩
      show Function.update s.s_VertexLoaders g (some p) j = some q
      rw [Function.update_noteq hjg]
      exact hq2
  · subst e
    refine ⟨?_, _, hl, mapFind_mapAssign_same _ _ _⟩
    intro j hj hc
    have hc2 : (s.s_attr_dirty &&& (0xFFFFFFFF ^^^ (1 <<< g))).testBit j = false := hc
    by_cases hjg : j = g
    · subst hjg
      refine ⟨_, mapFind_mapAssign_same _ _ _, ?_⟩
      show Function.update s.s_VertexLoaders j _ j = _
      rw [Function.update_same]
    · have hne : ¬ g = j := fun e => hjg e.symm
      rw [testBit_clear_bit _ _ _ hg32] at hc2
      have hj32 : j < 32 := by omega
      simp [hj32, hne] at hc2
      obtain ⟨q, hq1, hq2⟩ := hs j hj hc2
      have hkey : currentUID s j ≠ currentUID s g := by
        intro e
        rw [e, hf] at hq1
        cases hq1
      refine ⟨q, ?_, ?_⟩
      · show mapFind (mapAssign s.s_vertex_loader_map (currentUID s g) _) (currentUID s j) = _
        rw [mapFind_mapAssign_ne _ _ _ _ hkey]
        exact hq1
      · show Function.update s.s_VertexLoaders g _ j = some q
        rw [Function.update_noteq hjg]
        exact hq2

/-- The slot invariant reads only the dirty mask, the slots, the cache and the keys. -/
theorem SlotsValid_congr {s t : State} (hs : SlotsValid s)
    (h1 : t.s_attr_dirty = s.s_attr_dirty) (h2 : t.s_VertexLoaders = s.s_VertexLoaders)
    (h3 : t.s_vertex_loader_map = s.s_vertex_loader_map) (h4 : t.g_VtxDesc = s.g_VtxDesc)
    (h5 : t.g_VtxAttr = s.g_VtxAttr) : SlotsValid t := by
  intro g hg hc
  rw [h1] at hc
  obtain ⟨p, hp1, hp2⟩ := hs g hg hc
  refine ⟨p, ?_, by rw [h2]; exact hp2⟩
  unfold currentUID
  rw [h3, h4, h5]
  exact hp1

/-- The shapes of a completed `RunVertices` call: nothing to do, buffer too small, skipped,
drawn. In the last three the loader is the refreshed one and `size` is the byte count. -/
theorem RunVertices_cases {env : LoaderEnv} {cull_all : Bool} {s s2 : State} {g : Nat}
    {primitive count : Int} {buf_size : Nat} {skip_drawing b : Bool}
    (h : RunVertices env cull_all s g primitive count buf_size skip_drawing = some (b, s2)) :
    (count = 0 ∧ b = true ∧ s2 = s) ∨
    (count ≠ 0 ∧ ∃ p s1, RefreshLoader env s g = some (some p, s1) ∧
      ((buf_size < toSizeT (wrapInt32 (count * (env.GetVertexSize p : Int))) ∧
          b = false ∧ s2 = s1) ∨
       (¬ buf_size < toSizeT (wrapInt32 (count * (env.GetVertexSize p : Int))) ∧
          (skip_drawing || (cull_all && decide (primitive < 5))) = true ∧ b = true ∧
          s2 = { s1 with calls := s1.calls ++
            [Call.DataSkip (toSizeT (wrapInt32 (count * (env.GetVertexSize p : Int))) %
              2 ^ 32)] }) ∨
       (¬ buf_size < toSizeT (wrapInt32 (count * (env.GetVertexSize p : Int))) ∧
          (skip_drawing || (cull_all && decide (primitive < 5))) = false ∧ b = true ∧
          s2.s_current_vtx_fmt = env.GetNativeVertexFormat p ∧
          s2.s_attr_dirty = s1.s_attr_dirty ∧ s2.s_VertexLoaders = s1.s_VertexLoaders ∧
          s2.s_vertex_loader_map = s1.s_vertex_loader_map ∧
          s2.numVertexLoaders = s1.numVertexLoaders ∧
          s2.g_VtxDesc = s1.g_VtxDesc ∧ s2.g_VtxAttr = s1.g_VtxAttr))) := by
  unfold RunVertices at h
  by_cases hc : count = 0
  · rw [if_pos hc] at h
    cases h
    exact Or.inl ⟨hc, rfl, rfl⟩
  rw [if_neg hc] at h
  refine Or.inr ⟨hc, ?_⟩
  cases hr : RefreshLoader env s g with
  | none => rw [hr] at h; cases h
  | some r =>
    obtain ⟨l, s1⟩ := r
    cases l with
    | none => rw [hr] at h; cases h
    | some p =>
      rw [hr] at h
      refine ⟨p, s1, rfl, ?_⟩
      simp only at h
      by_cases hb : buf_size < toSizeT (wrapInt32 (count * (env.GetVertexSize p : Int)))
      · rw [if_pos hb] at h
        cases h
        exact Or.inl ⟨hb, rfl, rfl⟩
      rw [if_neg hb] at h
      by_cases hk : (skip_drawing || (cull_all && decide (primitive < 5))) = true
      · rw [if_pos hk] at h
        cases h
        exact Or.inr (Or.inl ⟨hb, hk, rfl, rfl⟩)
      rw [if_neg hk] at h
      cases h
      refine Or.inr (Or.inr ⟨hb, by simpa using hk, rfl, rfl, ?_⟩)
      by_cases hn : env.GetNativeVertexFormat p ≠ s1.s_current_vtx_fmt
      · rw [if_pos hn]
        exact ⟨rfl, rfl, rfl, rfl, rfl, rfl⟩
      · rw [if_neg hn]
        exact ⟨rfl, rfl, rfl, rfl, rfl, rfl⟩

/-! ## Invariants of call sequences -/

/-- What one completed call does to the loader state: either it is a `LoadCPReg`, or it
consists of at most one completed refresh followed by changes outside the loader state. -/
theorem step_cases {debug : Bool} {GetPointer : Nat → Nat} {env : LoaderEnv} {s s2 : State}
    {op : Op} (h : step debug GetPointer env s op = some s2) :
    (∃ c v, LoadCPReg debug GetPointer s c v = some s2) ∨
    (∃ s1, (s1 = s ∨ ∃ g l, RefreshLoader env s g = some (l, s1)) ∧
      s2.s_attr_dirty = s1.s_attr_dirty ∧ s2.s_VertexLoaders = s1.s_VertexLoaders ∧
      s2.s_vertex_loader_map = s1.s_vertex_loader_map ∧
      s2.numVertexLoaders = s1.numVertexLoaders ∧
      s2.g_VtxDesc = s1.g_VtxDesc ∧ s2.g_VtxAttr = s1.g_VtxAttr) := by
  cases op with
  | LoadCPReg c v => exact Or.inl ⟨c, v, h⟩
  | RefreshLoader g =>
    refine Or.inr ?_
    simp only [step] at h
    cases hr : RefreshLoader env s g with
    | none => rw [hr] at h; cases h
    | some r =>
      obtain ⟨l, s1⟩ := r
      rw [hr] at h
      cases h
      exact ⟨s1, Or.inr ⟨g, l, hr⟩, rfl, rfl, rfl, rfl, rfl, rfl⟩
  | GetVertexSize g =>
    refine Or.inr ?_
    simp only [step, GetVertexSize] at h
    cases hr : RefreshLoader env s g with
    | none => rw [hr] at h; cases h
    | some r =>
      obtain ⟨l, s1⟩ := r
      cases l with
      | none => rw [hr] at h; cases h
      | some p =>
        rw [hr] at h
        cases h
        exact ⟨s1, Or.inr ⟨g, some p, hr⟩, rfl, rfl, rfl, rfl, rfl, rfl⟩
  | RunVertices cull_all g primitive count buf_size skip_drawing =>
    refine Or.inr ?_
    simp only [step] at h
    cases hr : RunVertices env cull_all s g primitive count buf_size skip_drawing with
    | none => rw [hr] at h; cases h
    | some r =>
      obtain ⟨b, s3⟩ := r
      rw [hr] at h
      cases h
      rcases RunVertices_cases hr with ⟨-, -, e⟩ | ⟨-, p, s1, href, hrest⟩
      · exact ⟨s, Or.inl rfl, by rw [e], by rw [e], by rw [e], by rw [e], by rw [e], by rw [e]⟩
      · refine ⟨s1, Or.inr ⟨g, some p, href⟩, ?_⟩
        rcases hrest with ⟨-, -, e⟩ | ⟨-, -, -, e⟩ | ⟨-, -, -, -, e⟩
        · subst e; exact ⟨rfl, rfl, rfl, rfl, rfl, rfl⟩
        · subst e; exact ⟨rfl, rfl, rfl, rfl, rfl, rfl⟩
        · exact e

theorem step_slots_valid {debug : Bool} {GetPointer : Nat → Nat} {env : LoaderEnv}
    {s s2 : State} {op : Op} (hs : SlotsValid s)
    (h : step debug GetPointer env s op = some s2) : SlotsValid s2 := by
  rcases step_cases h with ⟨c, v, hl⟩ | ⟨s1, hs1, h1, h2, h3, -, h4, h5⟩
  · exact LoadCPReg_slots_valid hs hl
  · have hv : SlotsValid s1 := by
      rcases hs1 with e | ⟨g, l, hr⟩
      · rw [e]; exact hs
      · exact (RefreshLoader_slots_valid hs hr).1
    exact SlotsValid_congr hv h1 h2 h3 h4 h5

theorem run_slots_valid {debug : Bool} {GetPointer : Nat → Nat} {env : LoaderEnv}
    (ops : List Op) : ∀ {s s2 : State}, SlotsValid s →
      run debug GetPointer env s ops = some s2 → SlotsValid s2 := by
  induction ops with
  | nil =>
    intro s s2 hs h
    cases Option.some.inj h
    exact hs
  | cons op rest ih =>
    intro s s2 hs h
    unfold run at h
    cases hstep : step debug GetPointer env s op with
    | none => rw [hstep] at h; cases h
    | some s1 =>
      rw [hstep] at h
      exact ih (step_slots_valid hs hstep) h

/-- One completed call leaves the cache and the counter as they were, or adds one entry under
a key that was absent and counts it. -/
theorem step_cache {debug : Bool} {GetPointer : Nat → Nat} {env : LoaderEnv} {s s2 : State}
    {op : Op} (h : step debug GetPointer env s op = some s2) :
    (s2.s_vertex_loader_map = s.s_vertex_loader_map ∧
      s2.numVertexLoaders = s.numVertexLoaders) ∨
    (∃ k p, mapFind s.s_vertex_loader_map k = none ∧
      s2.s_vertex_loader_map = s.s_vertex_loader_map ++ [(k, p)] ∧
      s2.numVertexLoaders = s.numVertexLoaders + 1) := by
  rcases step_cases h with ⟨c, v, hl⟩ | ⟨s1, hs1, -, -, h3, h4, -, -⟩
  · obtain ⟨-, hm, hn, -⟩ := LoadCPReg_loader_frame hl
    exact Or.inl ⟨hm, hn⟩
  · rw [h3, h4]
    rcases hs1 with e | ⟨g, l, hr⟩
    · rw [e]; exact Or.inl ⟨rfl, rfl⟩
    · exact RefreshLoader_cache hr

/-- Over a completed sequence of calls the cache only grows at its end: the entries added have
pairwise distinct keys, all absent at the start, there is at most one of them per call, and the
loader counter grows by their number. -/
theorem run_cache_growth {debug : Bool} {GetPointer : Nat → Nat} {env : LoaderEnv}
    (ops : List Op) : ∀ {s s2 : State}, run debug GetPointer env s ops = some s2 →
      ∃ added : List (VertexLoaderUID × Nat),
        s2.s_vertex_loader_map = s.s_vertex_loader_map ++ added ∧
        (added.map Prod.fst).Nodup ∧
        (∀ k, k ∈ added.map Prod.fst → mapFind s.s_vertex_loader_map k = none) ∧
        added.length ≤ ops.length ∧
        s2.numVertexLoaders = s.numVertexLoaders + added.length := by
  induction ops with
  | nil =>
    intro s s2 h
    cases Option.some.inj h
    exact ⟨[], by simp, by simp, by simp, by simp, by simp⟩
  | cons op rest ih =>
    intro s s2 h
    unfold run at h
    cases hstep : step debug GetPointer env s op with
    | none => rw [hstep] at h; cases h
    | some s1 =>
      rw [hstep] at h
      obtain ⟨added, hmap, hnd, habs, hlen, hnum⟩ := ih h
      rcases step_cache hstep with ⟨hm, hn⟩ | ⟨k, p, hk, hm, hn⟩
      · refine ⟨added, by rw [hmap, hm], hnd, ?_, ?_, by rw [hnum, hn]⟩
        · intro k hk; rw [← hm]; exact habs k hk
        · simp only [List.length_cons]; omega
      · refine ⟨(k, p) :: added, ?_, ?_, ?_, ?_, ?_⟩
        · rw [hmap, hm]; simp
        · simp only [List.map_cons, List.nodup_cons]
          refine ⟨?_, hnd⟩
          intro hmem
          have h1 := habs k hmem
          rw [hm, mapFind_append_of_none _ _ _ hk] at h1
          simp [mapFind] at h1
        · intro k2 hk2
          simp only [List.map_cons, List.mem_cons] at hk2
          rcases hk2 with e | hk2
          · rw [e]; exact hk
          · have h1 := habs k2 hk2
            rw [hm] at h1
            exact mapFind_none_of_append _ _ _ h1
        · simp only [List.length_cons]; omega
        · rw [hnum, hn]; simp only [List.length_cons]; omega

/-! ## Slot validity, cache sharing, cache growth -/

theorem RefreshLoader_total (env : LoaderEnv) (s : State) (g : Nat) (hg : g < 8) :
    ∃ l s1, RefreshLoader env s g = some (l, s1) := by
  obtain ⟨l, s1, h, -, -⟩ := RefreshLoader_twice env s g hg
  exact ⟨l, s1, h⟩

/-- In a valid state, refreshing a group whose key the cache already holds returns the cached
loader and constructs nothing. -/
theorem RefreshLoader_of_found (env : LoaderEnv) {s : State} {g p : Nat} (hs : SlotsValid s)
    (hg : g < 8) (hf : mapFind s.s_vertex_loader_map (currentUID s g) = some p) :
    ∃ s2, RefreshLoader env s g = some (some p, s2) ∧
      s2.s_vertex_loader_map = s.s_vertex_loader_map ∧
      s2.numVertexLoaders = s.numVertexLoaders := by
  cases hd : s.s_attr_dirty.testBit g with
  | false =>
    obtain ⟨q, hq1, hq2⟩ := hs g hg hd
    rw [hf] at hq1
    cases hq1
    exact ⟨s, by rw [RefreshLoader_clean env s g hg hd, hq2], rfl, rfl⟩
  | true => exact ⟨_, RefreshLoader_hit env s g p hg hd hf, rfl, rfl⟩

/-- A run for examples: a debug build, `Init` on the zero state, two register writes and a
refresh of group 0. Groups 1 and 2 are still dirty and have identical attribute words. -/
theorem example_run :
    ∃ s, run true id exampleEnv (Init id State.zero)
        [Op.LoadCPReg 0x50 0x1, Op.LoadCPReg 0x70 0x2, Op.RefreshLoader 0] = some s ∧
      s.s_attr_dirty.testBit 0 = false ∧ s.g_VtxAttr 1 = s.g_VtxAttr 2 := by
  refine ⟨_, rfl, ?_, ?_⟩
  · decide
  · decide

/-- Claim C16. In every state reached from `Init` by a sequence of `LoadCPReg`,
`RefreshLoader`, `GetVertexSize` and `RunVertices` calls, every group `g < 8` whose dirty bit is
clear has in slot `g` exactly the loader that the cache stores under the key of the current
`(g_VtxDesc, g_VtxAttr[g])`. -/
theorem C16_slot_validity (debug : Bool) (GetPointer : Nat → Nat) (env : LoaderEnv)
    (s0 s : State) (ops : List Op)
    (hrun : run debug GetPointer env (Init GetPointer s0) ops = some s)
    (g : Nat) (hg : g < 8) (hc : s.s_attr_dirty.testBit g = false) :
    ∃ p, mapFind s.s_vertex_loader_map (currentUID s g) = some p ∧
      s.s_VertexLoaders g = some p :=
  run_slots_valid ops (Init_slots_valid GetPointer s0) hrun g hg hc

/-- Instance of C16: group 0 after the example run. -/
theorem C16_slot_validity_witness :
    ∃ s, run true id exampleEnv (Init id State.zero)
        [Op.LoadCPReg 0x50 0x1, Op.LoadCPReg 0x70 0x2, Op.RefreshLoader 0] = some s ∧
      s.s_attr_dirty.testBit 0 = false ∧
      ∃ p, mapFind s.s_vertex_loader_map (currentUID s 0) = some p ∧
        s.s_VertexLoaders 0 = some p := by
  obtain ⟨s, hrun, hc, -⟩ := example_run
  exact ⟨s, hrun, hc,
    C16_slot_validity true id exampleEnv State.zero s _ hrun 0 (by decide) hc⟩

/-- Claim C15. In every state reached from `Init`, for two groups `g, h < 8` (distinct or not)
with identical attribute words (the descriptor is shared), `RefreshLoader(g)` followed by
`RefreshLoader(h)` return the same loader, and the second call constructs nothing: the cache
and the loader counter are as the first call left them. -/
theorem C15_cache_sharing (debug : Bool) (GetPointer : Nat → Nat) (env : LoaderEnv)
    (s0 s : State) (ops : List Op)
    (hrun : run debug GetPointer env (Init GetPointer s0) ops = some s)
    (g h : Nat) (hg : g < 8) (hh : h < 8) (heq : s.g_VtxAttr g = s.g_VtxAttr h) :
    ∃ p s1 s2, RefreshLoader env s g = some (some p, s1) ∧
      RefreshLoader env s1 h = some (some p, s2) ∧
      s2.s_vertex_loader_map = s1.s_vertex_loader_map ∧
      s2.numVertexLoaders = s1.numVertexLoaders := by
  have hv : SlotsValid s := run_slots_valid ops (Init_slots_valid GetPointer s0) hrun
  obtain ⟨l, s1, hr1⟩ := RefreshLoader_total env s g hg
  obtain ⟨hv1, p, hl, hf⟩ := RefreshLoader_slots_valid hv hr1
  obtain ⟨hdesc, hattr, -⟩ := RefreshLoader_frame hr1
  have hkey : currentUID s1 h = currentUID s1 g := by
    unfold currentUID
    rw [hattr, heq]
  rw [← hkey] at hf
  obtain ⟨s2, hr2, hm, hn⟩ := RefreshLoader_of_found env hv1 hh hf
  subst hl
  exact ⟨p, s1, s2, hr1, hr2, hm, hn⟩

/-- Instance of C15: groups 1 and 2 after the example run. -/
theorem C15_cache_sharing_witness :
    ∃ s, run true id exampleEnv (Init id State.zero)
        [Op.LoadCPReg 0x50 0x1, Op.LoadCPReg 0x70 0x2, Op.RefreshLoader 0] = some s ∧
      s.g_VtxAttr 1 = s.g_VtxAttr 2 ∧
      ∃ p s1 s2, RefreshLoader exampleEnv s 1 = some (some p, s1) ∧
        RefreshLoader exampleEnv s1 2 = some (some p, s2) ∧
        s2.s_vertex_loader_map = s1.s_vertex_loader_map ∧
        s2.numVertexLoaders = s1.numVertexLoaders := by
  obtain ⟨s, hrun, -, heq⟩ := example_run
  exact ⟨s, hrun, heq,
    C15_cache_sharing true id exampleEnv State.zero s _ hrun 1 2 (by decide) (by decide)
      heq⟩

/-- Claim C17. Across any completed sequence of `LoadCPReg`, `RefreshLoader`, `GetVertexSize`
and `RunVertices` calls the loader cache never evicts and never rebuilds: every key present
stays mapped to the same loader; the cache afterwards is the cache before followed by the added
entries, whose keys are pairwise distinct and were all absent before, at most one per call,
each counted once by the loader counter; and a single call either leaves the cache as it was or
adds one entry under a key that was absent. -/
theorem C17_cache_never_evicts (debug : Bool) (GetPointer : Nat → Nat) (env : LoaderEnv)
    (s s2 : State) (ops : List Op) (hrun : run debug GetPointer env s ops = some s2) :
    (∀ k p, mapFind s.s_vertex_loader_map k = some p →
      mapFind s2.s_vertex_loader_map k = some p) ∧
    (∃ added : List (VertexLoaderUID × Nat),
      s2.s_vertex_loader_map = s.s_vertex_loader_map ++ added ∧
      (added.map Prod.fst).Nodup ∧
      (∀ k, k ∈ added.map Prod.fst → mapFind s.s_vertex_loader_map k = none) ∧
      added.length ≤ ops.length ∧
      s2.numVertexLoaders = s.numVertexLoaders + added.length) ∧
    (∀ (t t2 : State) (op : Op), step debug GetPointer env t op = some t2 →
      t2.s_vertex_loader_map = t.s_vertex_loader_map ∨
      ∃ k p, mapFind t.s_vertex_loader_map k = none ∧
        t2.s_vertex_loader_map = t.s_vertex_loader_map ++ [(k, p)]) := by
  obtain ⟨added, hmap, hrest⟩ := run_cache_growth ops hrun
  refine ⟨?_, ⟨added, hmap, hrest⟩, ?_⟩
  · intro k p hk
    rw [hmap]
    exact mapFind_append_of_some _ _ _ _ hk
  · intro t t2 op hstep
    rcases step_cache hstep with ⟨hm, -⟩ | ⟨k, p, hk, hm, -⟩
    · exact Or.inl hm
    · exact Or.inr ⟨k, p, hk, hm⟩

/-- Instance of C17: the example run, which starts from an empty cache and adds one entry. -/
theorem C17_cache_never_evicts_witness :
    ∃ s2, run true id exampleEnv (Init id State.zero)
        [Op.LoadCPReg 0x50 0x1, Op.LoadCPReg 0x70 0x2, Op.RefreshLoader 0] = some s2 ∧
      ∃ added : List (VertexLoaderUID × Nat),
        s2.s_vertex_loader_map = (Init id State.zero).s_vertex_loader_map ++ added ∧
        (added.map Prod.fst).Nodup ∧
        (∀ k, k ∈ added.map Prod.fst →
          mapFind (Init id State.zero).s_vertex_loader_map k = none) ∧
        added.length ≤
          [Op.LoadCPReg 0x50 0x1, Op.LoadCPReg 0x70 0x2, Op.RefreshLoader 0].length ∧
        s2.numVertexLoaders = (Init id State.zero).numVertexLoaders + added.length := by
  obtain ⟨s2, hrun, -, -⟩ := example_run
  exact ⟨s2, hrun, (C17_cache_never_evicts true id exampleEnv _ s2 _ hrun).2.1⟩

/-! ## Vertex dispatch -/

/-- Claim C18. With `count = 0`, `RunVertices` returns `true` and the state it was given:
no slot is refreshed, nothing is consumed, flushed or counted, and the current vertex format
is unchanged, whatever the group, primitive, buffer size, skip flag and cull mode. -/
theorem C18_zero_count_noop (env : LoaderEnv) (cull_all : Bool) (s : State) (g : Nat)
    (primitive : Int) (buf_size : Nat) (skip_drawing : Bool) :
    RunVertices env cull_all s g primitive 0 buf_size skip_drawing = some (true, s) := by
  unfold RunVertices
  rw [if_pos rfl]

theorem size_of_fitting (x : Int) (h0 : 0 ≤ x) (h1 : x < 2 ^ 31) :
    toSizeT (wrapInt32 x) = x.toNat := by
  unfold toSizeT wrapInt32
  have e : (x + 2 ^ 31) % 2 ^ 32 - 2 ^ 31 = x := by omega
  rw [e]
  have e2 : x % 2 ^ 64 = x := by omega
  rw [e2]

/-- Claim C19. For `count > 0` and a refreshed loader of vertex size `sz` with `count * sz`
below `2 ^ 31`, `RunVertices` returns `false` when `buf_size < count * sz` and `true` when
`buf_size ≥ count * sz`, whatever the primitive, the skip flag and the cull mode; in particular
it fails for `buf_size = count * sz - 1` and succeeds for `buf_size = count * sz`. -/
theorem C19_buffer_size_check (env : LoaderEnv) (cull_all : Bool) (s s1 : State) (g p : Nat)
    (primitive count : Int) (buf_size : Nat) (skip_drawing : Bool)
    (hcount : 0 < count) (href : RefreshLoader env s g = some (some p, s1))
    (hfit : count * (env.GetVertexSize p : Int) < 2 ^ 31) :
    ((buf_size : Int) < count * (env.GetVertexSize p : Int) →
      RunVertices env cull_all s g primitive count buf_size skip_drawing = some (false, s1)) ∧
    (count * (env.GetVertexSize p : Int) ≤ (buf_size : Int) →
      ∃ s2, RunVertices env cull_all s g primitive count buf_size skip_drawing =
        some (true, s2)) ∧
    ((buf_size : Int) = count * (env.GetVertexSize p : Int) - 1 →
      RunVertices env cull_all s g primitive count buf_size skip_drawing = some (false, s1)) ∧
    ((buf_size : Int) = count * (env.GetVertexSize p : Int) →
      ∃ s2, RunVertices env cull_all s g primitive count buf_size skip_drawing =
        some (true, s2)) := by
  have h0 : 0 ≤ count * (env.GetVertexSize p : Int) :=
    Int.mul_nonneg (le_of_lt hcount) (Int.ofNat_nonneg _)
  have hsize := size_of_fitting _ h0 hfit
  have hne : ¬ count = 0 := by omega
  have hfail : (buf_size : Int) < count * (env.GetVertexSize p : Int) →
      RunVertices env cull_all s g primitive count buf_size skip_drawing = some (false, s1) := by
    intro hlt
    have hb : buf_size < toSizeT (wrapInt32 (count * (env.GetVertexSize p : Int))) := by
      rw [hsize]; omega
    unfold RunVertices
    rw [if_neg hne, href]
    simp only
    rw [if_pos hb]
  have hpass : count * (env.GetVertexSize p : Int) ≤ (buf_size : Int) →
      ∃ s2, RunVertices env cull_all s g primitive count buf_size skip_drawing =
        some (true, s2) := by
    intro hle
    have hb : ¬ buf_size < toSizeT (wrapInt32 (count * (env.GetVertexSize p : Int))) := by
      rw [hsize]; omega
    unfold RunVertices
    rw [if_neg hne, href]
    simp only
    rw [if_neg hb]
    by_cases hk : (skip_drawing || (cull_all && decide (primitive < 5))) = true
    · rw [if_pos hk]; exact ⟨_, rfl⟩
    · rw [if_neg hk]; exact ⟨_, rfl⟩
  exact ⟨hfail, hpass, fun e => hfail (by omega), fun e => hpass (by omega)⟩

/-- A refresh for examples: group 0 of the zero state with all groups marked dirty is a miss
that constructs the loader at address 1. -/
theorem example_refresh :
    ∃ s1, RefreshLoader exampleEnv (MarkAllDirty State.zero) 0 = some (some 1, s1) :=
  ⟨_, rfl⟩

/-- Instance of C19: three vertices of size 12; a buffer of 35 bytes fails. -/
theorem C19_buffer_size_check_witness :
    ∃ s1, RefreshLoader exampleEnv (MarkAllDirty State.zero) 0 = some (some 1, s1) ∧
      (0 : Int) < 3 ∧ (3 : Int) * (exampleEnv.GetVertexSize 1 : Int) < 2 ^ 31 ∧
      RunVertices exampleEnv false (MarkAllDirty State.zero) 0 4 3 35 false =
        some (false, s1) := by
  obtain ⟨s1, href⟩ := example_refresh
  exact ⟨s1, href, by decide, by decide,
    (C19_buffer_size_check exampleEnv false (MarkAllDirty State.zero) s1 0 1 4 3 35 false
      (by decide) href (by decide)).1 (by decide)⟩

/-- Claim C20. When `RunVertices` returns `false`, the state it leaves is exactly the state
after the slot refresh `RefreshLoader(g)` that precedes the size check: no call was made (no
input skipped, no flush, no index generation, no statistics update) and the current vertex
format is unchanged. -/
theorem C20_failed_draw_consumes_nothing (env : LoaderEnv) (cull_all : Bool) (s s2 : State)
    (g : Nat) (primitive count : Int) (buf_size : Nat) (skip_drawing : Bool)
    (h : RunVertices env cull_all s g primitive count buf_size skip_drawing =
      some (false, s2)) :
    (∃ l, RefreshLoader env s g = some (l, s2)) ∧
    s2.calls = s.calls ∧
    s2.s_current_vtx_fmt = s.s_current_vtx_fmt := by
  rcases RunVertices_cases h with ⟨-, hb, -⟩ | ⟨-, p, s1, href, hrest⟩
  · cases hb
  · rcases hrest with ⟨-, -, e⟩ | ⟨-, -, hb, -⟩ | ⟨-, -, hb, -⟩
    · subst e
      obtain ⟨-, -, -, -, -, hfmt, hcalls⟩ := RefreshLoader_frame href
      exact ⟨⟨_, href⟩, hcalls, hfmt⟩
    · cases hb
    · cases hb

/-- A failing draw for examples: three vertices of size 12 and a buffer of 35 bytes. -/
theorem example_failing_draw :
    ∃ s2, RunVertices exampleEnv false (MarkAllDirty State.zero) 0 4 3 35 false =
      some (false, s2) :=
  ⟨_, rfl⟩

/-- Instance of C20: the failing example draw. -/
theorem C20_failed_draw_consumes_nothing_witness :
    ∃ s2, RunVertices exampleEnv false (MarkAllDirty State.zero) 0 4 3 35 false =
        some (false, s2) ∧
      (∃ l, RefreshLoader exampleEnv (MarkAllDirty State.zero) 0 = some (l, s2)) ∧
      s2.calls = (MarkAllDirty State.zero).calls ∧
      s2.s_current_vtx_fmt = (MarkAllDirty State.zero).s_current_vtx_fmt := by
  obtain ⟨s2, h⟩ := example_failing_draw
  exact ⟨s2, h,
    C20_failed_draw_consumes_nothing exampleEnv false (MarkAllDirty State.zero) s2 0 4 3 35
      false h⟩

/-! ## Wiimote transport result -/

/-- Claim C25, refuted as stated: for the transport result `-2` the code takes the packet
branch, so it returns the negative value `-1` although the result is not `0`, and it writes
`buf[0]`; for the result `2 ^ 31 - 1` the value `r + 1` is not an `int`. -/
theorem C25_counterexample :
    (IORead 0xA0 0x01 (-2) (fun _ => 0)).1 = -1 ∧ ((-2 : Int) ≠ 0) ∧
    (IORead 0xA0 0x01 (-2) (fun _ => 0)).2 0 = 0xA1 ∧
    (-(2 : Int) ^ 31 ≤ -2) ∧
    (IORead 0xA0 0x01 (2 ^ 31 - 1) (fun _ => 0)).1 ≠ 2 ^ 31 - 1 + 1 := by
  decide

/-- Claim C25, amended. For a transport result `r` with `-1 ≤ r` and `r + 1` an `int`,
`IORead` returns `0` exactly when `r = -1`, a negative value exactly when `r = 0`, and for
`r > 0` it returns `r + 1` (positive) after storing the byte `WM_SET_REPORT | WM_BT_INPUT` in
`buf[0]` and nothing else; for `r = -1` and `r = 0` the buffer is left as it was. -/
theorem C25_IORead_result (WM_SET_REPORT WM_BT_INPUT : Nat) (r : Int) (buf : Nat → Nat)
    (hlo : -1 ≤ r) (hhi : r < 2 ^ 31 - 1) :
    ((IORead WM_SET_REPORT WM_BT_INPUT r buf).1 = 0 ↔ r = -1) ∧
    ((IORead WM_SET_REPORT WM_BT_INPUT r buf).1 < 0 ↔ r = 0) ∧
    (0 < r →
      (IORead WM_SET_REPORT WM_BT_INPUT r buf).1 = r + 1 ∧
      0 < (IORead WM_SET_REPORT WM_BT_INPUT r buf).1 ∧
      (IORead WM_SET_REPORT WM_BT_INPUT r buf).2 0 = (WM_SET_REPORT ||| WM_BT_INPUT) % 2 ^ 8 ∧
      ∀ i, i ≠ 0 → (IORead WM_SET_REPORT WM_BT_INPUT r buf).2 i = buf i) ∧
    (r = -1 ∨ r = 0 → (IORead WM_SET_REPORT WM_BT_INPUT r buf).2 = buf) := by
  have hw : ∀ x : Int, 0 < x → x < 2 ^ 31 - 1 → wrapInt32 (x + 1) = x + 1 := by
    intro x h0 h1
    unfold wrapInt32
    omega
  by_cases h1 : r = -1
  · subst h1
    simp [IORead]
  · by_cases h0 : r = 0
    · subst h0
      simp [IORead]
    · have hpos : 0 < r := by omega
      have hv : (IORead WM_SET_REPORT WM_BT_INPUT r buf).1 = r + 1 := by
        simp only [IORead, if_neg h1, if_neg h0]
        exact hw r hpos hhi
      refine ⟨?_, ?_, ?_, ?_⟩
      · rw [hv]; constructor <;> intro h <;> omega
      · rw [hv]; constructor <;> intro h <;> omega
      · intro _
        refine ⟨hv, by rw [hv]; omega, ?_, ?_⟩
        · simp only [IORead, if_neg h1, if_neg h0, Function.update_same]
        · intro i hi
          simp only [IORead, if_neg h1, if_neg h0]
          rw [Function.update_noteq hi]
      · intro h
        rcases h with h | h
        · exact absurd h h1
        · exact absurd h h0

/-- Instance of C25 (amended): a packet of 21 bytes, with the constants `0xA0` and `0x01`. -/
theorem C25_IORead_result_witness :
    ((IORead 0xA0 0x01 21 (fun _ => 0)).1 = 0 ↔ (21 : Int) = -1) ∧
    ((IORead 0xA0 0x01 21 (fun _ => 0)).1 < 0 ↔ (21 : Int) = 0) ∧
    ((0 : Int) < 21 →
      (IORead 0xA0 0x01 21 (fun _ => 0)).1 = 21 + 1 ∧
      0 < (IORead 0xA0 0x01 21 (fun _ => 0)).1 ∧
      (IORead 0xA0 0x01 21 (fun _ => 0)).2 0 = (0xA0 ||| 0x01) % 2 ^ 8 ∧
      ∀ i, i ≠ 0 → (IORead 0xA0 0x01 21 (fun _ => 0)).2 i = (fun _ => 0) i) ∧
    ((21 : Int) = -1 ∨ (21 : Int) = 0 → (IORead 0xA0 0x01 21 (fun _ => 0)).2 = fun _ => 0) :=
  C25_IORead_result 0xA0 0x01 21 (fun _ => 0) (by decide) (by decide)

/-! ## Teardown -/

/-- Claim C23. After `Shutdown` the loader cache has no entry, whatever the state before, so no
key is mapped to a loader any more, and the call that clears the native vertex format cache
has been made. -/
theorem C23_shutdown_clears_caches (s : State) :
    (Shutdown s).s_vertex_loader_map = [] ∧
    (∀ k, mapFind (Shutdown s).s_vertex_loader_map k = none) ∧
    (Shutdown s).calls = s.calls ++ [Call.ClearNativeVertexFormatCache] :=
  ⟨rfl, fun _ => rfl, rfl⟩

/-- Claim C29. `Shutdown` changes only the caches: the dirty mask, the eight slots, the
register file, the loader counter and the current vertex format are as before. Hence for a
group `g < 8` whose dirty bit is clear the slot still holds its loader, which no entry of the
now empty cache owns, and `RefreshLoader(g)` returns that slot value with the state unchanged,
without a lookup. -/
theorem C29_shutdown_keeps_slots (env : LoaderEnv) (s : State) :
    Shutdown s = { s with
      s_vertex_loader_map := []
      calls := s.calls ++ [Call.ClearNativeVertexFormatCache] } ∧
    (Shutdown s).s_attr_dirty = s.s_attr_dirty ∧
    (Shutdown s).s_VertexLoaders = s.s_VertexLoaders ∧
    (∀ g, g < 8 → s.s_attr_dirty.testBit g = false →
      RefreshLoader env (Shutdown s) g = some (s.s_VertexLoaders g, Shutdown s) ∧
      ∀ k p, (k, p) ∉ (Shutdown s).s_vertex_loader_map) := by
  refine ⟨rfl, rfl, rfl, ?_⟩
  intro g hg hc
  refine ⟨RefreshLoader_clean env (Shutdown s) g hg hc, ?_⟩
  intro k p h
  cases h

/-- A state for examples: after the example scenario, group 0 is clean and its slot holds the
loader at address 1, which the cache owns. -/
theorem example_clean_state :
    ∃ s, run true id exampleEnv (Init id State.zero)
        [Op.LoadCPReg 0x50 0x1, Op.LoadCPReg 0x70 0x2, Op.RefreshLoader 0] = some s ∧
      s.s_attr_dirty.testBit 0 = false ∧ s.s_VertexLoaders 0 = some 1 ∧
      s.s_vertex_loader_map.length = 1 := by
  refine ⟨_, rfl, ?_, ?_, ?_⟩
  · decide
  · decide
  · decide

/-- Instance of C29: group 0 after the example scenario and `Shutdown`. -/
theorem C29_shutdown_keeps_slots_witness :
    ∃ s, s.s_attr_dirty.testBit 0 = false ∧ s.s_VertexLoaders 0 = some 1 ∧
      s.s_vertex_loader_map.length = 1 ∧
      RefreshLoader exampleEnv (Shutdown s) 0 = some (some 1, Shutdown s) ∧
      ∀ k p, (k, p) ∉ (Shutdown s).s_vertex_loader_map := by
  obtain ⟨s, -, hc, hslot, hlen⟩ := example_clean_state
  have h := (C29_shutdown_keeps_slots exampleEnv s).2.2.2 0 (by decide) hc
  rw [hslot] at h
  exact ⟨s, hc, hslot, hlen, h⟩

/-! ## Aliasing of commands -/

theorem and_FF_and_F0 (c : Nat) : (c &&& 0xFF) &&& 0xF0 = c &&& 0xF0 := by
  rw [Nat.and_assoc]; rfl

theorem and_FF_and_0F (c : Nat) : (c &&& 0xFF) &&& 0x0F = c &&& 0x0F := by
  rw [Nat.and_assoc]; rfl

theorem and_FF_and_7 (c : Nat) : (c &&& 0xFF) &&& 7 = c &&& 7 := by
  rw [Nat.and_assoc]; rfl

/-- The rows `0x30` to `0x60` use nothing of the command but its row. -/
theorem LoadCPReg_row_only (debug : Bool) (GetPointer : Nat → Nat) (s : State) (r n v : Nat)
    (hr : r = 0x30 ∨ r = 0x40 ∨ r = 0x50 ∨ r = 0x60) (hn : n < 16) :
    LoadCPReg debug GetPointer s (r + n) v = LoadCPReg debug GetPointer s r v := by
  rcases hr with h | h | h | h <;> subst h <;> interval_cases n <;> rfl

/-- Claim C26. `LoadCPReg` decodes only bits 0..7 of the command: `LoadCPReg(sub_cmd, v)` is
`LoadCPReg(sub_cmd AND 0xFF, v)`, in result state and in completion alike; and in the rows
`0x30`, `0x40`, `0x50` and `0x60` the low nibble is ignored too: `LoadCPReg(row + n, v)` is
`LoadCPReg(row, v)` for every `n` in `0..15`. -/
theorem C26_command_aliasing (debug : Bool) (GetPointer : Nat → Nat) (s : State)
    (sub_cmd v : Nat) :
    LoadCPReg debug GetPointer s sub_cmd v =
      LoadCPReg debug GetPointer s (sub_cmd &&& 0xFF) v ∧
    (∀ n, n < 16 →
      LoadCPReg debug GetPointer s (0x30 + n) v = LoadCPReg debug GetPointer s 0x30 v ∧
      LoadCPReg debug GetPointer s (0x40 + n) v = LoadCPReg debug GetPointer s 0x40 v ∧
      LoadCPReg debug GetPointer s (0x50 + n) v = LoadCPReg debug GetPointer s 0x50 v ∧
      LoadCPReg debug GetPointer s (0x60 + n) v = LoadCPReg debug GetPointer s 0x60 v) := by
  constructor
  · unfold LoadCPReg
    rw [and_FF_and_F0, and_FF_and_0F, and_FF_and_7]
  · intro n hn
    exact ⟨LoadCPReg_row_only debug GetPointer s 0x30 n v (Or.inl rfl) hn,
      LoadCPReg_row_only debug GetPointer s 0x40 n v (Or.inr (Or.inl rfl)) hn,
      LoadCPReg_row_only debug GetPointer s 0x50 n v (Or.inr (Or.inr (Or.inl rfl))) hn,
      LoadCPReg_row_only debug GetPointer s 0x60 n v (Or.inr (Or.inr (Or.inr rfl))) hn⟩

/-- Instance of C26: command `0x5C` in the zero state. -/
theorem C26_command_aliasing_witness :
    LoadCPReg true id State.zero (0x50 + 12) 7 = LoadCPReg true id State.zero 0x50 7 :=
  ((C26_command_aliasing true id State.zero 0 7).2 12 (by decide)).2.2.1

/-! ## The skip path and the draw path -/

/-- The calls a draw makes after the refresh, in order: the flush if the native format of the
loader differs from the current one, then preparation, loading, index generation and the two
statistics updates. -/
theorem RunVertices_pass (env : LoaderEnv) (cull_all : Bool) {s s1 : State} {g p : Nat}
    (primitive : Int) {count : Int} {buf_size : Nat} (skip_drawing : Bool)
    (hcount : count ≠ 0) (href : RefreshLoader env s g = some (some p, s1))
    (hsize : ¬ buf_size < toSizeT (wrapInt32 (count * (env.GetVertexSize p : Int)))) :
    ((skip_drawing || (cull_all && decide (primitive < 5))) = true →
      RunVertices env cull_all s g primitive count buf_size skip_drawing =
        some (true, { s1 with calls := s1.calls ++
          [Call.DataSkip (toSizeT (wrapInt32 (count * (env.GetVertexSize p : Int))) %
            2 ^ 32)] })) ∧
    ((skip_drawing || (cull_all && decide (primitive < 5))) = false →
      RunVertices env cull_all s g primitive count buf_size skip_drawing =
        some (true, { s1 with
          s_current_vtx_fmt := env.GetNativeVertexFormat p
          calls := s1.calls ++
            (if env.GetNativeVertexFormat p ≠ s1.s_current_vtx_fmt then
              [Call.Flush s1.s_current_vtx_fmt] else []) ++
            [Call.PrepareForAdditionalData primitive count (env.stride p),
             Call.LoaderRunVertices p (s1.g_VtxAttr g) primitive count,
             Call.AddIndices primitive count,
             Call.AddStatNumPrims count,
             Call.IncStatNumPrimitiveJoins] })) := by
  constructor
  · intro hk
    unfold RunVertices
    rw [if_neg hcount, href]
    simp only
    rw [if_neg hsize, if_pos hk]
  · intro hk
    have hk2 : ¬ (skip_drawing || (cull_all && decide (primitive < 5))) = true := by
      rw [hk]; decide
    unfold RunVertices
    rw [if_neg hcount, href]
    simp only
    rw [if_neg hsize, if_neg hk2]
    by_cases hn : env.GetNativeVertexFormat p ≠ s1.s_current_vtx_fmt
    · rw [if_pos hn, if_pos hn]
    · rw [if_neg hn, if_neg hn]
      simp

theorem skip_condition_iff (skip_drawing cull_all : Bool) (primitive : Int) :
    (skip_drawing || (cull_all && decide (primitive < 5))) = true ↔
      (skip_drawing = true ∨ (cull_all = true ∧ primitive < 5)) := by
  simp

/-- Claim C21, refuted as stated: with 357913942 vertices of size 12 the byte count
4294967304 exceeds 32 bits; the size check passes with a buffer of 8 bytes and the skip path
advances the input cursor by 8 bytes, not by `count * vertexSize`. -/
theorem C21_counterexample :
    ((0 : Int) < 357913942) ∧
    (RunVertices exampleEnv false (MarkAllDirty State.zero) 0 4 357913942 8 true).map
      (fun r => (r.1, r.2.calls)) = some (true, [Call.DataSkip 8]) ∧
    (357913942 : Int) * (exampleEnv.GetVertexSize 1 : Int) = 4294967304 := by
  decide

/-- Claim C21, amended. For a call of `RunVertices` with `count > 0` whose byte count
`count * vertexSize` fits in a signed 32-bit integer and passes the size check, the skip path
is taken exactly when `skip_drawing` is set or the cull mode is `CULL_ALL` and `primitive < 5`.
On the skip path the call returns `true` and its only effect after the refresh is
`DataSkip(count * vertexSize)`: no flush, no change of the current vertex format, no indices,
no statistics. Otherwise the call draws and skips no input. -/
theorem C21_skip_path (env : LoaderEnv) (cull_all : Bool) (s s1 : State) (g p : Nat)
    (primitive count : Int) (buf_size : Nat) (skip_drawing : Bool)
    (hcount : 0 < count) (href : RefreshLoader env s g = some (some p, s1))
    (hfit : count * (env.GetVertexSize p : Int) < 2 ^ 31)
    (hsize : count * (env.GetVertexSize p : Int) ≤ (buf_size : Int)) :
    ((skip_drawing = true ∨ (cull_all = true ∧ primitive < 5)) →
      RunVertices env cull_all s g primitive count buf_size skip_drawing =
        some (true, { s1 with calls := s.calls ++
          [Call.DataSkip (count * (env.GetVertexSize p : Int)).toNat] })) ∧
    (¬ (skip_drawing = true ∨ (cull_all = true ∧ primitive < 5)) →
      ∃ s2, RunVertices env cull_all s g primitive count buf_size skip_drawing =
          some (true, s2) ∧
        (∀ n, Call.DataSkip n ∉ s2.calls.drop s.calls.length) ∧
        Call.AddIndices primitive count ∈ s2.calls.drop s.calls.length) := by
  have h0 : 0 ≤ count * (env.GetVertexSize p : Int) :=
    Int.mul_nonneg (le_of_lt hcount) (Int.ofNat_nonneg _)
  have hsz := size_of_fitting _ h0 hfit
  have hne : count ≠ 0 := by omega
  have hpass : ¬ buf_size < toSizeT (wrapInt32 (count * (env.GetVertexSize p : Int))) := by
    rw [hsz]; omega
  have hcalls : s1.calls = s.calls := (RefreshLoader_frame href).2.2.2.2.2.2
  obtain ⟨hskip, hdraw⟩ := RunVertices_pass env cull_all primitive skip_drawing hne href hpass
  have hmod : (count * (env.GetVertexSize p : Int)).toNat % 2 ^ 32 =
      (count * (env.GetVertexSize p : Int)).toNat := by
    apply Nat.mod_eq_of_lt
    omega
  constructor
  · intro hk
    rw [hskip ((skip_condition_iff _ _ _).mpr hk), hsz, hmod, hcalls]
  · intro hk
    have hk2 : (skip_drawing || (cull_all && decide (primitive < 5))) = false := by
      cases hb : (skip_drawing || (cull_all && decide (primitive < 5)))
      · rfl
      · exact absurd ((skip_condition_iff _ _ _).mp hb) hk
    refine ⟨_, hdraw hk2, ?_, ?_⟩
    · intro n
      show Call.DataSkip n ∉ List.drop s.calls.length (s1.calls ++ _ ++ _)
      rw [hcalls, List.append_assoc, List.drop_left]
      by_cases hn : env.GetNativeVertexFormat p ≠ s1.s_current_vtx_fmt
      · rw [if_pos hn]; simp
      · rw [if_neg hn]; simp
    · show Call.AddIndices primitive count ∈ List.drop s.calls.length (s1.calls ++ _ ++ _)
      rw [hcalls, List.append_assoc, List.drop_left]
      simp

/-- A passing skipped draw for examples: three vertices of size 12, a buffer of 36 bytes. -/
theorem example_refresh_for_draw :
    ∃ s1, RefreshLoader exampleEnv (MarkAllDirty State.zero) 0 = some (some 1, s1) ∧
      exampleEnv.GetVertexSize 1 = 12 :=
  ⟨_, rfl, rfl⟩

/-- Instance of C21 (amended): three vertices of size 12, a buffer of 36 bytes, cull mode
`CULL_ALL` and a triangle primitive. -/
theorem C21_skip_path_witness :
    ∃ s1, RefreshLoader exampleEnv (MarkAllDirty State.zero) 0 = some (some 1, s1) ∧
      RunVertices exampleEnv true (MarkAllDirty State.zero) 0 2 3 36 false =
        some (true, { s1 with calls := (MarkAllDirty State.zero).calls ++
          [Call.DataSkip ((3 : Int) * (exampleEnv.GetVertexSize 1 : Int)).toNat] }) := by
  obtain ⟨s1, href, -⟩ := example_refresh_for_draw
  exact ⟨s1, href,
    (C21_skip_path exampleEnv true (MarkAllDirty State.zero) s1 0 1 2 3 36 false (by decide)
      href (by decide) (by decide)).1 (Or.inr ⟨rfl, by decide⟩)⟩

/-- Claim C22. On a `RunVertices` call with `count ≠ 0` that returns `true` and is not
skipped, a flush is issued exactly when the native vertex format of the refreshed loader
differs from the current format held before the call. The flush is the first call of the draw,
ahead of the preparation, the loading and the index generation, and it runs while the current
format is still the old one; after the call the current format is the native format of the
loader. -/
theorem C22_flush_before_switch (env : LoaderEnv) (cull_all : Bool) (s s2 : State) (g : Nat)
    (primitive count : Int) (buf_size : Nat) (skip_drawing : Bool)
    (hcount : count ≠ 0)
    (hnoskip : ¬ (skip_drawing = true ∨ (cull_all = true ∧ primitive < 5)))
    (h : RunVertices env cull_all s g primitive count buf_size skip_drawing =
      some (true, s2)) :
    ∃ p s1, RefreshLoader env s g = some (some p, s1) ∧
      s2.calls = s.calls ++
        (if env.GetNativeVertexFormat p ≠ s.s_current_vtx_fmt then
          [Call.Flush s.s_current_vtx_fmt] else []) ++
        [Call.PrepareForAdditionalData primitive count (env.stride p),
         Call.LoaderRunVertices p (s.g_VtxAttr g) primitive count,
         Call.AddIndices primitive count,
         Call.AddStatNumPrims count,
         Call.IncStatNumPrimitiveJoins] ∧
      s2.s_current_vtx_fmt = env.GetNativeVertexFormat p := by
  have hk2 : (skip_drawing || (cull_all && decide (primitive < 5))) = false := by
    cases hb : (skip_drawing || (cull_all && decide (primitive < 5)))
    · rfl
    · exact absurd ((skip_condition_iff _ _ _).mp hb) hnoskip
  rcases RunVertices_cases h with ⟨hc, -, -⟩ | ⟨-, p, s1, href, hrest⟩
  · exact absurd hc hcount
  · have hsize : ¬ buf_size < toSizeT (wrapInt32 (count * (env.GetVertexSize p : Int))) := by
      rcases hrest with ⟨-, hb, -⟩ | ⟨hs, -⟩ | ⟨hs, -⟩
      · cases hb
      · exact hs
      · exact hs
    have hdraw := (RunVertices_pass env cull_all primitive skip_drawing hcount href hsize).2 hk2
    rw [hdraw] at h
    obtain ⟨-, hattr, -, -, -, hfmt, hcalls⟩ := RefreshLoader_frame href
    cases h
    refine ⟨p, s1, href, ?_, rfl⟩
    show s1.calls ++ _ ++ _ = _
    rw [hcalls, hfmt, hattr]

/-- A draw for examples: three vertices of size 12, a buffer of 36 bytes, nothing culled; the
format changes from none to the format of the loader, so a flush is issued. -/
theorem example_draw :
    ∃ s2, RunVertices exampleEnv false (MarkAllDirty State.zero) 0 2 3 36 false =
      some (true, s2) :=
  ⟨_, rfl⟩

/-- Instance of C22: the example draw. -/
theorem C22_flush_before_switch_witness :
    ∃ s2, RunVertices exampleEnv false (MarkAllDirty State.zero) 0 2 3 36 false =
        some (true, s2) ∧
      ∃ p s1, RefreshLoader exampleEnv (MarkAllDirty State.zero) 0 = some (some p, s1) ∧
        s2.calls = (MarkAllDirty State.zero).calls ++
          (if exampleEnv.GetNativeVertexFormat p ≠ (MarkAllDirty State.zero).s_current_vtx_fmt
            then [Call.Flush (MarkAllDirty State.zero).s_current_vtx_fmt] else []) ++
          [Call.PrepareForAdditionalData 2 3 (exampleEnv.stride p),
           Call.LoaderRunVertices p ((MarkAllDirty State.zero).g_VtxAttr 0) 2 3,
           Call.AddIndices 2 3,
           Call.AddStatNumPrims 3,
           Call.IncStatNumPrimitiveJoins] ∧
        s2.s_current_vtx_fmt = exampleEnv.GetNativeVertexFormat p := by
  obtain ⟨s2, h⟩ := example_draw
  exact ⟨s2, h,
    C22_flush_before_switch exampleEnv false (MarkAllDirty State.zero) s2 0 2 3 36 false
      (by decide) (by decide) h⟩

/-! ## No null loader, and the loader counter -/

theorem mem_of_mapFind {m : List (VertexLoaderUID × Nat)} {k : VertexLoaderUID} {p : Nat}
    (h : mapFind m k = some p) : (k, p) ∈ m := by
  induction m with
  | nil => simp [mapFind] at h
  | cons e rest ih =>
    obtain ⟨k2, p2⟩ := e
    by_cases h2 : k2 = k
    · simp only [mapFind, h2, if_true, Option.some.injEq] at h
      subst h2 h
      exact List.mem_cons_self _ _
    · simp only [mapFind, h2, if_false] at h
      exact List.mem_cons_of_mem _ (ih h)

/-- Claim C28. In every state reached from `Init` by a sequence of `LoadCPReg`,
`RefreshLoader`, `GetVertexSize` and `RunVertices` calls (group indices in `0..7`, no
`Shutdown`), `RefreshLoader(g)` for `g < 8` returns a non-null loader that is an entry of the
loader cache, under the key of the group; therefore `GetVertexSize(g)` and every
`RunVertices` call on group `g` complete, never dereferencing the null pointer that `Init`
stored in the slots. -/
theorem C28_no_null_loader (debug : Bool) (GetPointer : Nat → Nat) (env : LoaderEnv)
    (s0 s : State) (ops : List Op)
    (hrun : run debug GetPointer env (Init GetPointer s0) ops = some s)
    (g : Nat) (hg : g < 8) :
    (Init GetPointer s0).s_VertexLoaders g = none ∧
    (∃ p s1, RefreshLoader env s g = some (some p, s1) ∧
      (currentUID s1 g, p) ∈ s1.s_vertex_loader_map) ∧
    (∃ r, GetVertexSize env s g = some r) ∧
    (∀ (cull_all : Bool) (primitive count : Int) (buf_size : Nat) (skip_drawing : Bool),
      ∃ r, RunVertices env cull_all s g primitive count buf_size skip_drawing = some r) := by
  have hv : SlotsValid s := run_slots_valid ops (Init_slots_valid GetPointer s0) hrun
  obtain ⟨l, s1, hr⟩ := RefreshLoader_total env s g hg
  obtain ⟨-, p, hl, hf⟩ := RefreshLoader_slots_valid hv hr
  subst hl
  refine ⟨Init_slots_null GetPointer s0 g hg, ⟨p, s1, hr, mem_of_mapFind hf⟩, ?_, ?_⟩
  · exact ⟨(env.GetVertexSize p, s1), by simp only [GetVertexSize, hr]⟩
  · intro cull_all primitive count buf_size skip_drawing
    by_cases hc : count = 0
    · exact ⟨(true, s), by unfold RunVertices; rw [if_pos hc]⟩
    · by_cases hb : buf_size < toSizeT (wrapInt32 (count * (env.GetVertexSize p : Int)))
      · refine ⟨(false, s1), ?_⟩
        unfold RunVertices
        rw [if_neg hc, hr]
        simp only
        rw [if_pos hb]
      · obtain ⟨h1, h2⟩ := RunVertices_pass env cull_all primitive skip_drawing hc hr hb
        cases hk : (skip_drawing || (cull_all && decide (primitive < 5)))
        · exact ⟨_, h2 hk⟩
        · exact ⟨_, h1 hk⟩

/-- Instance of C28: group 3 after the example run. -/
theorem C28_no_null_loader_witness :
    ∃ s, run true id exampleEnv (Init id State.zero)
        [Op.LoadCPReg 0x50 0x1, Op.LoadCPReg 0x70 0x2, Op.RefreshLoader 0] = some s ∧
      ∃ p s1, RefreshLoader exampleEnv s 3 = some (some p, s1) ∧
        (currentUID s1 3, p) ∈ s1.s_vertex_loader_map := by
  obtain ⟨s, hrun, -, -⟩ := example_run
  exact ⟨s, hrun,
    (C28_no_null_loader true id exampleEnv State.zero s _ hrun 3 (by decide)).2.1⟩

/-- Claim C30. The loader counter tracks the cache. A completed `RefreshLoader(g)` that
inserts a cache entry (dirty bit set, key absent) increments `stats.numVertexLoaders` by
exactly one and adds exactly that entry; when the key is found or the dirty bit is clear the
counter and the cache are unchanged. Hence over any completed sequence of `LoadCPReg`,
`RefreshLoader`, `GetVertexSize` and `RunVertices` calls that starts with an empty cache, the
counter grows by the number of entries of the cache. -/
theorem C30_counter_tracks_cache (debug : Bool) (GetPointer : Nat → Nat) (env : LoaderEnv)
    (s s2 : State) (ops : List Op) (hempty : s.s_vertex_loader_map = [])
    (hrun : run debug GetPointer env s ops = some s2) :
    s2.numVertexLoaders = s.numVertexLoaders + s2.s_vertex_loader_map.length ∧
    (∀ (t t1 : State) (g : Nat) (l : Option Nat), RefreshLoader env t g = some (l, t1) →
      (t.s_attr_dirty.testBit g = true →
        mapFind t.s_vertex_loader_map (currentUID t g) = none →
          t1.numVertexLoaders = t.numVertexLoaders + 1 ∧
          t1.s_vertex_loader_map = t.s_vertex_loader_map ++
            [(currentUID t g, env.new_VertexLoader t g)]) ∧
      ((t.s_attr_dirty.testBit g = false ∨
          ∃ p, mapFind t.s_vertex_loader_map (currentUID t g) = some p) →
        t1.numVertexLoaders = t.numVertexLoaders ∧
        t1.s_vertex_loader_map = t.s_vertex_loader_map)) := by
  constructor
  · obtain ⟨added, hmap, -, -, -, hnum⟩ := run_cache_growth ops hrun
    rw [hnum, hmap, hempty]
    simp
  · intro t t1 g l hr
    rcases (RefreshLoader_cases hr).2 with ⟨hd, -, e⟩ | ⟨hd, p, -, hf, e⟩ | ⟨hd, -, hf, e⟩
    · subst e
      refine ⟨?_, fun _ => ⟨rfl, rfl⟩⟩
      intro hd2
      rw [hd] at hd2
      cases hd2
    · subst e
      refine ⟨?_, fun _ => ⟨rfl, rfl⟩⟩
      intro _ hf2
      rw [hf] at hf2
      cases hf2
    · subst e
      refine ⟨fun _ _ => ⟨rfl, mapAssign_of_absent _ _ _ hf⟩, ?_⟩
      intro h
      rcases h with h | ⟨p, h⟩
      · rw [hd] at h; cases h
      · rw [hf] at h; cases h

/-- Instance of C30: the example run, which starts from the empty cache of the zero state. -/
theorem C30_counter_tracks_cache_witness :
    ∃ s2, run true id exampleEnv (Init id State.zero)
        [Op.LoadCPReg 0x50 0x1, Op.LoadCPReg 0x70 0x2, Op.RefreshLoader 0] = some s2 ∧
      s2.s_vertex_loader_map.length = 1 ∧
      s2.numVertexLoaders =
        (Init id State.zero).numVertexLoaders + s2.s_vertex_loader_map.length := by
  obtain ⟨s2, hrun, -, -, hlen⟩ := example_clean_state
  exact ⟨s2, hrun, hlen,
    (C30_counter_tracks_cache true id exampleEnv (Init id State.zero) s2 _
      (Init_loader_fields id State.zero).2.1 hrun).1⟩

/-! ## Restoring the register file from a dump -/

theorem restore_lo_of_lo_write (x d : Nat) :
    ((x &&& 0xFFFFFFFFFFFE0000) ||| (d % 2 ^ 32)) % 2 ^ 17 = d % 2 ^ 17 := by
  apply Nat.eq_of_testBit_eq
  intro i
  simp only [Nat.testBit_mod_two_pow, Nat.testBit_or, Nat.testBit_and, testBit_hi_mask]
  by_cases h : i < 17
  · have h1 : ¬ 17 ≤ i := by omega
    have h2 : i < 32 := by omega
    simp [h, h1, h2]
  · simp [h]

theorem restore_hi_of_lo_write (x d : Nat) (hx : x >>> 17 = d >>> 17) (hd : d < 2 ^ 49) :
    ((x &&& 0xFFFFFFFFFFFE0000) ||| (d % 2 ^ 32)) >>> 17 = d >>> 17 := by
  apply Nat.eq_of_testBit_eq
  intro i
  have hxi : x.testBit (17 + i) = d.testBit (17 + i) := by
    have := congrArg (fun n => n.testBit i) hx
    simpa only [Nat.testBit_shiftRight] using this
  simp only [Nat.testBit_shiftRight, Nat.testBit_mod_two_pow, Nat.testBit_or, Nat.testBit_and,
    testBit_hi_mask, hxi]
  have h17 : 17 ≤ 17 + i := by omega
  by_cases h : 17 + i < 64
  · by_cases h2 : 17 + i < 32 <;> simp [h, h2, h17]
  · have hbig : 49 ≤ 17 + i := by omega
    have h2 : ¬ 17 + i < 32 := by omega
    simp [h, h2, testBit_of_lt_of_le hd hbig]

theorem restore_hi_of_hi_write (x d : Nat) (hd : d < 2 ^ 49) :
    ((x &&& 0x1FFFF) ||| ((((d >>> 17) % 2 ^ 32) <<< 17) % 2 ^ 64)) >>> 17 = d >>> 17 := by
  apply Nat.eq_of_testBit_eq
  intro i
  simp only [Nat.testBit_shiftRight, Nat.testBit_mod_two_pow, Nat.testBit_or, Nat.testBit_and,
    testBit_lo_mask, Nat.testBit_shiftLeft]
  have h17 : 17 ≤ 17 + i := by omega
  have h1 : ¬ 17 + i < 17 := by omega
  have e : 17 + i - 17 = i := by omega
  by_cases h : i < 32
  · have h2 : 17 + i < 64 := by omega
    simp [h, h1, h2, h17, e]
  · have hbig : 49 ≤ 17 + i := by omega
    simp [h, h1, e, testBit_of_lt_of_le hd hbig]

theorem restore_lo_of_hi_write (x v : Nat) :
    ((x &&& 0x1FFFF) ||| ((v <<< 17) % 2 ^ 64)) % 2 ^ 17 = x % 2 ^ 17 := by
  apply Nat.eq_of_testBit_eq
  intro i
  simp only [Nat.testBit_mod_two_pow, Nat.testBit_or, Nat.testBit_and, testBit_lo_mask,
    Nat.testBit_shiftLeft]
  by_cases h : i < 17
  · have h1 : ¬ 17 ≤ i := by omega
    simp [h, h1]
  · simp [h]

theorem eq_of_lo_hi (x d : Nat) (hlo : x % 2 ^ 17 = d % 2 ^ 17) (hhi : x >>> 17 = d >>> 17) :
    x = d := by
  rw [Nat.shiftRight_eq_div_pow, Nat.shiftRight_eq_div_pow] at hhi
  rw [← Nat.div_add_mod x (2 ^ 17), ← Nat.div_add_mod d (2 ^ 17), hlo, hhi]

/-- What a completed `LoadCPReg` call does to the descriptor, by row. -/
theorem LoadCPReg_desc {debug : Bool} {GetPointer : Nat → Nat} {s s1 : State} {c v : Nat}
    (h : LoadCPReg debug GetPointer s c v = some s1) :
    s1.g_VtxDesc =
      if c &&& 0xF0 = 0x50 then (s.g_VtxDesc &&& 0xFFFFFFFFFFFE0000) ||| v
      else if c &&& 0xF0 = 0x60 then (s.g_VtxDesc &&& 0x1FFFF) ||| ((v <<< 17) % 2 ^ 64)
      else s.g_VtxDesc := by
  unfold LoadCPReg at h
  by_cases h3 : c &&& 0xF0 = 0x30
  · rw [if_pos h3] at h
    cases Option.some.inj h
    rw [if_neg (by omega), if_neg (by omega)]
  rw [if_neg h3] at h
  by_cases h4 : c &&& 0xF0 = 0x40
  · rw [if_pos h4] at h
    cases Option.some.inj h
    rw [if_neg (by omega), if_neg (by omega)]
  rw [if_neg h4] at h
  by_cases h5 : c &&& 0xF0 = 0x50
  · rw [if_pos h5] at h
    cases Option.some.inj h
    rw [if_pos h5]
  rw [if_neg h5] at h
  by_cases h6 : c &&& 0xF0 = 0x60
  · rw [if_pos h6] at h
    cases Option.some.inj h
    rw [if_neg h5, if_pos h6]
  rw [if_neg h6] at h
  rw [if_neg h5, if_neg h6]
  by_cases h7 : c &&& 0xF0 = 0x70
  · rw [if_pos h7] at h
    cases Option.some.inj (assert_bind_some h)
    rfl
  rw [if_neg h7] at h
  by_cases h8 : c &&& 0xF0 = 0x80
  · rw [if_pos h8] at h
    cases Option.some.inj (assert_bind_some h)
    rfl
  rw [if_neg h8] at h
  by_cases h9 : c &&& 0xF0 = 0x90
  · rw [if_pos h9] at h
    cases Option.some.inj (assert_bind_some h)
    rfl
  rw [if_neg h9] at h
  by_cases hA : c &&& 0xF0 = 0xA0
  · rw [if_pos hA] at h
    cases Option.some.inj h
    rfl
  rw [if_neg hA] at h
  by_cases hB : c &&& 0xF0 = 0xB0
  · rw [if_pos hB] at h
    cases Option.some.inj h
    rfl
  rw [if_neg hB] at h
  cases Option.some.inj h
  rfl

/-- The offsets a restore writes are command bytes that pass the assertion, and among them only
`0x50` and `0x60` select the descriptor rows. -/
theorem restoreOffsets_facts :
    ∀ c ∈ restoreOffsets, c ≤ 0xFF ∧ assertHolds c = true ∧
      (c &&& 0xF0 = 0x50 ↔ c = 0x50) ∧ (c &&& 0xF0 = 0x60 ↔ c = 0x60) := by
  decide

theorem registerSlot_mem_restoreOffsets (o : Nat) (ho : IsRegisterSlot o) :
    o ∈ restoreOffsets := by
  unfold IsRegisterSlot at ho
  have h : o < 0xC0 := by omega
  interval_cases o <;> first | decide | omega

theorem stride_slot_masked (R : State) (mem0 : Nat → Nat) (o : Nat) (ho : IsRegisterSlot o)
    (hb : 0xB0 ≤ o) (hst : ∀ i, i < 16 → R.arraystrides i ≤ 0xFF) :
    FillCPMemoryArray R mem0 o &&& 0xFF = FillCPMemoryArray R mem0 o := by
  unfold IsRegisterSlot at ho
  obtain ⟨i, rfl⟩ : ∃ i, o = 0xB0 + i := ⟨o - 0xB0, by omega⟩
  have hi : i < 16 := by omega
  rw [(FillCPMemoryArray_array R mem0 i hi).2, and_FF_eq]
  exact Nat.mod_eq_of_lt (by have := hst i hi; omega)

/-- One write of a restore: a part of the register file that already agrees with `R`, or that
this write addresses, agrees with `R` afterwards. The parts are the low 17 bits of the
descriptor, its bits from 17 up, and each register slot of the dump. -/
theorem restore_step {debug : Bool} {GetPointer : Nat → Nat} {R s s1 : State}
    {mem0 : Nat → Nat} {c : Nat} (hd : R.g_VtxDesc < 2 ^ 49)
    (hst : ∀ i, i < 16 → R.arraystrides i ≤ 0xFF) (hc : c ∈ restoreOffsets)
    (h : LoadCPReg debug GetPointer s c (FillCPMemoryArray R mem0 c) = some s1) :
    ((s.g_VtxDesc % 2 ^ 17 = R.g_VtxDesc % 2 ^ 17 ∨ c = 0x50) →
      s1.g_VtxDesc % 2 ^ 17 = R.g_VtxDesc % 2 ^ 17) ∧
    ((s.g_VtxDesc >>> 17 = R.g_VtxDesc >>> 17 ∨ c = 0x60) →
      s1.g_VtxDesc >>> 17 = R.g_VtxDesc >>> 17) ∧
    (∀ o, IsRegisterSlot o →
      (FillCPMemoryArray s mem0 o = FillCPMemoryArray R mem0 o ∨ c = o) →
      FillCPMemoryArray s1 mem0 o = FillCPMemoryArray R mem0 o) := by
  obtain ⟨hbyte, hassert, h50, h60⟩ := restoreOffsets_facts c hc
  have hdesc := LoadCPReg_desc h
  refine ⟨?_, ?_, ?_⟩
  · intro hp
    by_cases e5 : c = 0x50
    · subst e5
      rw [hdesc, if_pos (by decide), FillCPMemoryArray_0x50]
      exact restore_lo_of_lo_write _ _
    · have n5 : ¬ c &&& 0xF0 = 0x50 := fun e => e5 (h50.mp e)
      have hp2 : s.g_VtxDesc % 2 ^ 17 = R.g_VtxDesc % 2 ^ 17 := by
        rcases hp with hp | hp
        · exact hp
        · exact absurd hp e5
      by_cases e6 : c &&& 0xF0 = 0x60
      · rw [hdesc, if_neg n5, if_pos e6, restore_lo_of_hi_write]
        exact hp2
      · rw [hdesc, if_neg n5, if_neg e6]
        exact hp2
  · intro hp
    by_cases e6 : c = 0x60
    · subst e6
      rw [hdesc, if_neg (by decide), if_pos (by decide), FillCPMemoryArray_0x60]
      exact restore_hi_of_hi_write _ _ hd
    · have n6 : ¬ c &&& 0xF0 = 0x60 := fun e => e6 (h60.mp e)
      have hp2 : s.g_VtxDesc >>> 17 = R.g_VtxDesc >>> 17 := by
        rcases hp with hp | hp
        · exact hp
        · exact absurd hp e6
      by_cases e5 : c = 0x50
      · subst e5
        rw [hdesc, if_pos (by decide), FillCPMemoryArray_0x50]
        exact restore_hi_of_lo_write _ _ hp2 hd
      · have n5 : ¬ c &&& 0xF0 = 0x50 := fun e => e5 (h50.mp e)
        rw [hdesc, if_neg n5, if_neg n6]
        exact hp2
  · intro o ho hp
    rw [FillCPMemoryArray_step h mem0 o ho, decodedSlot_of_byte c hbyte hassert]
    by_cases e : c = o
    · subst e
      rw [if_pos rfl]
      by_cases hb : 0xB0 ≤ c
      · rw [if_pos hb]
        exact stride_slot_masked R mem0 c ho hb hst
      · rw [if_neg hb]
    · rw [if_neg e]
      rcases hp with hp | hp
      · exact hp
      · exact absurd hp e

/-- A sequence of restore writes, in any order and with any repetition: it runs to
completion, and every part of the register file that agreed with `R` at the start, or that
some write of the sequence addresses, agrees with `R` at the end. -/
theorem restore_run (debug : Bool) (GetPointer : Nat → Nat) (R : State) (mem0 : Nat → Nat)
    (hd : R.g_VtxDesc < 2 ^ 49) (hst : ∀ i, i < 16 → R.arraystrides i ≤ 0xFF)
    (os : List Nat) : ∀ (s : State), (∀ o ∈ os, o ∈ restoreOffsets) →
      ∃ s1, LoadCPRegs debug GetPointer s (os.map (fun o => (o, FillCPMemoryArray R mem0 o))) =
          some s1 ∧
        ((s.g_VtxDesc % 2 ^ 17 = R.g_VtxDesc % 2 ^ 17 ∨ 0x50 ∈ os) →
          s1.g_VtxDesc % 2 ^ 17 = R.g_VtxDesc % 2 ^ 17) ∧
        ((s.g_VtxDesc >>> 17 = R.g_VtxDesc >>> 17 ∨ 0x60 ∈ os) →
          s1.g_VtxDesc >>> 17 = R.g_VtxDesc >>> 17) ∧
        (∀ o, IsRegisterSlot o →
          (FillCPMemoryArray s mem0 o = FillCPMemoryArray R mem0 o ∨ o ∈ os) →
          FillCPMemoryArray s1 mem0 o = FillCPMemoryArray R mem0 o) := by
  induction os with
  | nil =>
    intro s _
    refine ⟨s, rfl, ?_, ?_, ?_⟩
    · intro h; rcases h with h | h
      · exact h
      · cases h
    · intro h; rcases h with h | h
      · exact h
      · cases h
    · intro o _ h; rcases h with h | h
      · exact h
      · cases h
  | cons c rest ih =>
    intro s hmem
    have hc : c ∈ restoreOffsets := hmem c (List.mem_cons_self _ _)
    obtain ⟨s2, hstep⟩ := LoadCPReg_total debug GetPointer s c (FillCPMemoryArray R mem0 c)
      (fun _ => (restoreOffsets_facts c hc).2.1)
    obtain ⟨hA, hB, hC⟩ := restore_step hd hst hc hstep
    obtain ⟨s1, hrun, iA, iB, iC⟩ := ih s2 (fun o ho => hmem o (List.mem_cons_of_mem _ ho))
    refine ⟨s1, ?_, ?_, ?_, ?_⟩
    · rw [List.map_cons, LoadCPRegs, hstep]
      exact hrun
    · intro h
      apply iA
      rcases h with h | h
      · exact Or.inl (hA (Or.inl h))
      · rcases List.mem_cons.mp h with e | e
        · exact Or.inl (hA (Or.inr e.symm))
        · exact Or.inr e
    · intro h
      apply iB
      rcases h with h | h
      · exact Or.inl (hB (Or.inl h))
      · rcases List.mem_cons.mp h with e | e
        · exact Or.inl (hB (Or.inr e.symm))
        · exact Or.inr e
    · intro o ho h
      apply iC o ho
      rcases h with h | h
      · exact Or.inl (hC o ho (Or.inl h))
      · rcases List.mem_cons.mp h with e | e
        · exact Or.inl (hC o ho (Or.inr e.symm))
        · exact Or.inr e

/-- Claim C27. Restoring from a dump reproduces the register file. Let `R` have a descriptor
below `2 ^ 49` and strides at most `0xFF`, and let `M` be the array that `FillCPMemoryArray`
fills from `R`. Applying `LoadCPReg(o, M[o])` for the offsets `0x50`, `0x60`, `0x70..0x77`,
`0x80..0x87`, `0x90..0x97`, `0xA0..0xBF` in any order, starting from any register file, runs
to completion and yields the descriptor, the eight attribute groups, the sixteen array bases
and the sixteen array strides of `R`. -/
theorem C27_restore_from_dump (debug : Bool) (GetPointer : Nat → Nat) (R s : State)
    (mem0 : Nat → Nat) (os : List Nat)
    (hd : R.g_VtxDesc < 2 ^ 49) (hst : ∀ i, i < 16 → R.arraystrides i ≤ 0xFF)
    (hperm : os.Perm restoreOffsets) :
    ∃ s1, LoadCPRegs debug GetPointer s (os.map (fun o => (o, FillCPMemoryArray R mem0 o))) =
        some s1 ∧
      s1.g_VtxDesc = R.g_VtxDesc ∧
      (∀ i, i < 8 → s1.g_VtxAttr i = R.g_VtxAttr i) ∧
      (∀ i, i < 16 → s1.arraybases i = R.arraybases i) ∧
      (∀ i, i < 16 → s1.arraystrides i = R.arraystrides i) := by
  obtain ⟨s1, hrun, hA, hB, hC⟩ := restore_run debug GetPointer R mem0 hd hst os s
    (fun o ho => hperm.mem_iff.mp ho)
  have hin : ∀ o, o ∈ restoreOffsets → o ∈ os := fun o ho => hperm.mem_iff.mpr ho
  have hslot : ∀ o, IsRegisterSlot o →
      FillCPMemoryArray s1 mem0 o = FillCPMemoryArray R mem0 o :=
    fun o ho => hC o ho (Or.inr (hin o (registerSlot_mem_restoreOffsets o ho)))
  refine ⟨s1, hrun, ?_, ?_, ?_, ?_⟩
  · exact eq_of_lo_hi _ _ (hA (Or.inr (hin _ (by decide)))) (hB (Or.inr (hin _ (by decide))))
  · intro i hi
    have h0 := hslot (0x70 + i) (Or.inl (by omega))
    have h1 := hslot (0x80 + i) (Or.inr (Or.inl (by omega)))
    have h2 := hslot (0x90 + i) (Or.inr (Or.inr (Or.inl (by omega))))
    rw [(FillCPMemoryArray_attr s1 mem0 i hi).1, (FillCPMemoryArray_attr R mem0 i hi).1] at h0
    rw [(FillCPMemoryArray_attr s1 mem0 i hi).2.1,
      (FillCPMemoryArray_attr R mem0 i hi).2.1] at h1
    rw [(FillCPMemoryArray_attr s1 mem0 i hi).2.2,
      (FillCPMemoryArray_attr R mem0 i hi).2.2] at h2
    cases hs : s1.g_VtxAttr i
    cases hr : R.g_VtxAttr i
    rw [hs, hr] at h0 h1 h2
    simp only at h0 h1 h2
    rw [h0, h1, h2]
  · intro i hi
    have h0 := hslot (0xA0 + i) (Or.inr (Or.inr (Or.inr (Or.inl (by omega)))))
    rw [(FillCPMemoryArray_array s1 mem0 i hi).1, (FillCPMemoryArray_array R mem0 i hi).1] at h0
    exact h0
  · intro i hi
    have h0 := hslot (0xB0 + i) (Or.inr (Or.inr (Or.inr (Or.inr (by omega)))))
    rw [(FillCPMemoryArray_array s1 mem0 i hi).2, (FillCPMemoryArray_array R mem0 i hi).2] at h0
    exact h0

/-- Instance of C27: the dump of a register file with descriptor `0x1ABCDEF012345` is written
back, strides and bases first, onto the zero state in a debug build. -/
theorem C27_restore_from_dump_witness :
    ∃ s1, LoadCPRegs true id State.zero
        (restoreOffsets.reverse.map (fun o =>
          (o, FillCPMemoryArray { State.zero with g_VtxDesc := 0x1ABCDEF012345 }
            (fun _ => 0) o))) = some s1 ∧
      s1.g_VtxDesc = ({ State.zero with g_VtxDesc := 0x1ABCDEF012345 } : State).g_VtxDesc ∧
      (∀ i, i < 8 → s1.g_VtxAttr i =
        ({ State.zero with g_VtxDesc := 0x1ABCDEF012345 } : State).g_VtxAttr i) ∧
      (∀ i, i < 16 → s1.arraybases i =
        ({ State.zero with g_VtxDesc := 0x1ABCDEF012345 } : State).arraybases i) ∧
      (∀ i, i < 16 → s1.arraystrides i =
        ({ State.zero with g_VtxDesc := 0x1ABCDEF012345 } : State).arraystrides i) :=
  C27_restore_from_dump true id { State.zero with g_VtxDesc := 0x1ABCDEF012345 } State.zero
    (fun _ => 0) restoreOffsets.reverse (by decide) (fun _ _ => Nat.zero_le _)
    (List.reverse_perm restoreOffsets)

end Dolphin
